import Mathlib

/-!
Verification of the finance-api script collection.

Shallow embedding of the Python scripts in `scripts/`.  Conventions used
throughout this development:

* Python floats are embedded as rationals (`ℚ`); all arithmetic the claims
  exercise (+, -, *, /, comparisons) is exact on the inputs considered.
* A pandas float series is `List (Option ℚ)`, where `none` models a
  missing value (NaN).  Division by zero also yields `none` (in floating
  point it gives NaN or ±inf; every point the theorems below touch is a
  0/0, where the two notions agree).
* Python truthiness of optional numbers (`if x:`) is `none`/`0` ↦ false.
* SQLite tables are lists of row structures; a table schema is the list of
  its column names.
-/

/-- Python truthiness of an optional number: `None` and `0` are falsy. -/
def truthy (x : Option ℚ) : Bool :=
  match x with
  | none => false
  | some v => v ≠ 0

/-- Python `int()` applied to a float/rational: truncation toward zero. -/
def pyInt (q : ℚ) : ℤ :=
  if 0 ≤ q then ⌊q⌋ else ⌈q⌉

/-! ## calculate_stop_loss (backtest_single_commodity.py lines 133-153) -/

/-- Embedding of `calculate_stop_loss`.  `atr`/`volty` are `None`-able
arguments; an `'atr'` (resp. `'volatility'`) request with a missing
indicator falls through every branch and returns `None`, as in the
source. -/
def calculate_stop_loss (entry_price : ℚ) (method : String) (value : ℚ)
    (atr volty : Option ℚ) (direction : String) : Option ℚ :=
  if method = "atr" then
    match atr with
    | some a =>
        let stop_distance := value * a
        some (if direction = "long" then entry_price - stop_distance
              else entry_price + stop_distance)
    | none => none
  else if method = "percentage" then
    let percentage := value / 100
    some (if direction = "long" then entry_price * (1 - percentage)
          else entry_price * (1 + percentage))
  else if method = "volatility" then
    match volty with
    | some v =>
        let vol_distance := entry_price * (value * v / 100 / 100)
        some (if direction = "long" then entry_price - vol_distance
              else entry_price + vol_distance)
    | none => none
  else if method = "fixed" then
    some (if direction = "long" then entry_price - value
          else entry_price + value)
  else none

/-! ## calculate_safety_score (update_stocks_from_yahoo.py lines 84-170)

The source accumulates `score` through five independent `if` blocks; each
block is factored here as a named component function, and the embedded
`calculate_safety_score` sums them exactly as the source does. -/

/-- Dividend-yield component of the safety score (0-1 points). -/
def yieldScore (dy : Option ℚ) : ℚ :=
  if truthy dy then
    let v := dy.getD 0
    if 2 ≤ v ∧ v ≤ 6 then 1
    else if (1 ≤ v ∧ v < 2) ∨ (6 < v ∧ v ≤ 8) then 0.7
    else if 0 < v then 0.3
    else 0
  else 0

/-- Payout-ratio component of the safety score (0-1 points); falls back to
half credit when the ratio is missing but a dividend exists. -/
def payoutScore (pr dy : Option ℚ) : ℚ :=
  if truthy pr then
    let v := pr.getD 0
    if v < 50 then 1
    else if v < 60 then 0.8
    else if v < 75 then 0.5
    else if v < 90 then 0.3
    else 0
  else if truthy dy ∧ 0 < dy.getD 0 then 0.5
  else 0

/-- Dividend-growth component of the safety score (0-1 points). -/
def growthScore (g : Option ℚ) : ℚ :=
  if truthy g then
    let v := g.getD 0
    if 10 ≤ v then 1
    else if 5 ≤ v then 0.8
    else if 0 ≤ v then 0.5
    else 0
  else 0

/-- Consecutive-years-of-payment component of the safety score (0-1 points). -/
def streakScore (consecYears : ℤ) : ℚ :=
  if 25 ≤ consecYears then 1
  else if 10 ≤ consecYears then 0.8
  else if 5 ≤ consecYears then 0.5
  else if 0 < consecYears then 0.3
  else 0

/-- Beta component of the safety score (0-1 points). -/
def betaScore (beta : Option ℚ) : ℚ :=
  if truthy beta then
    let v := beta.getD 0
    if v < 0.8 then 1
    else if v < 1 then 0.8
    else if v < 1.2 then 0.5
    else if v < 1.5 then 0.3
    else 0
  else 0

/-- Python `round(q, 2)`.  Mathlib's `round` rounds halves up while Python
rounds halves to even, but every score reachable below is a multiple of
1/10, where the two agree (no halves arise). -/
def round2 (q : ℚ) : ℚ :=
  (round (q * 100) : ℚ) / 100

/-- Rating thresholds of `calculate_safety_score`. -/
def ratingOf (score : ℚ) : String :=
  if 4.5 ≤ score then "Excellent"
  else if 3.5 ≤ score then "Very Good"
  else if 2.5 ≤ score then "Good"
  else if 1.5 ≤ score then "Fair"
  else if 0.5 ≤ score then "Below Average"
  else "Poor"

/-- Recommendation thresholds of `calculate_safety_score`. -/
def recommendationOf (score : ℚ) : String :=
  if 4 ≤ score then
    "Strong dividend stock with excellent safety metrics. Suitable for income-focused portfolios."
  else if 3 ≤ score then
    "Good dividend stock with solid fundamentals. Consider for balanced income portfolios."
  else if 2 ≤ score then
    "Acceptable dividend stock but monitor closely. Suitable for moderate risk tolerance."
  else if 1 ≤ score then
    "Below average dividend metrics. Higher risk - consider alternatives."
  else
    "Poor dividend safety. High risk - not recommended for income investors."

/-- Embedding of `StockDataUpdater.calculate_safety_score`: returns
`(round(score, 2), rating, recommendation)`. -/
def calculate_safety_score (dy pr g : Option ℚ) (consecYears : ℤ)
    (beta : Option ℚ) : ℚ × String × String :=
  let score := yieldScore dy + payoutScore pr dy + growthScore g
      + streakScore consecYears + betaScore beta
  (round2 score, ratingOf score, recommendationOf score)

lemma yieldScore_mem (dy : Option ℚ) :
    yieldScore dy = 0 ∨ yieldScore dy = 0.3 ∨ yieldScore dy = 0.7 ∨ yieldScore dy = 1 := by
  simp only [yieldScore]
  split_ifs <;> norm_num

lemma payoutScore_mem (pr dy : Option ℚ) :
    payoutScore pr dy = 0 ∨ payoutScore pr dy = 0.3 ∨ payoutScore pr dy = 0.5 ∨
      payoutScore pr dy = 0.8 ∨ payoutScore pr dy = 1 := by
  simp only [payoutScore]
  split_ifs <;> norm_num

lemma growthScore_mem (g : Option ℚ) :
    growthScore g = 0 ∨ growthScore g = 0.5 ∨ growthScore g = 0.8 ∨ growthScore g = 1 := by
  simp only [growthScore]
  split_ifs <;> norm_num

lemma streakScore_mem (cy : ℤ) :
    streakScore cy = 0 ∨ streakScore cy = 0.3 ∨ streakScore cy = 0.5 ∨
      streakScore cy = 0.8 ∨ streakScore cy = 1 := by
  simp only [streakScore]
  split_ifs <;> norm_num

lemma betaScore_mem (b : Option ℚ) :
    betaScore b = 0 ∨ betaScore b = 0.3 ∨ betaScore b = 0.5 ∨
      betaScore b = 0.8 ∨ betaScore b = 1 := by
  simp only [betaScore]
  split_ifs <;> norm_num

/-- Every safety-score component is an integer number of tenths between 0 and 10. -/
lemma score_component_tenths (q : ℚ)
    (h : q = 0 ∨ q = 0.3 ∨ q = 0.5 ∨ q = 0.7 ∨ q = 0.8 ∨ q = 1) :
    ∃ k : ℕ, k ≤ 10 ∧ q = (k : ℚ) / 10 := by
  rcases h with h | h | h | h | h | h
  · exact ⟨0, by norm_num, by rw [h]; norm_num⟩
  · exact ⟨3, by norm_num, by rw [h]; norm_num⟩
  · exact ⟨5, by norm_num, by rw [h]; norm_num⟩
  · exact ⟨7, by norm_num, by rw [h]; norm_num⟩
  · exact ⟨8, by norm_num, by rw [h]; norm_num⟩
  · exact ⟨10, by norm_num, by rw [h]; norm_num⟩

lemma round2_nat_tenths (K : ℕ) : round2 ((K : ℚ) / 10) = (K : ℚ) / 10 := by
  unfold round2
  have h1 : ((K : ℚ) / 10) * 100 = ((K * 10 : ℕ) : ℚ) := by push_cast; ring
  rw [h1, round_natCast]
  push_cast
  ring

/-- The raw safety score is an integer number of tenths, hence `round(·, 2)`
leaves it unchanged. -/
lemma safety_raw_tenths (dy pr g : Option ℚ) (cy : ℤ) (b : Option ℚ) :
    ∃ K : ℕ, K ≤ 50 ∧
      yieldScore dy + payoutScore pr dy + growthScore g + streakScore cy + betaScore b
        = (K : ℚ) / 10 := by
  obtain ⟨k1, hk1, e1⟩ := score_component_tenths (yieldScore dy) (by
    rcases yieldScore_mem dy with h | h | h | h <;> simp [h])
  obtain ⟨k2, hk2, e2⟩ := score_component_tenths (payoutScore pr dy) (by
    rcases payoutScore_mem pr dy with h | h | h | h | h <;> simp [h])
  obtain ⟨k3, hk3, e3⟩ := score_component_tenths (growthScore g) (by
    rcases growthScore_mem g with h | h | h | h <;> simp [h])
  obtain ⟨k4, hk4, e4⟩ := score_component_tenths (streakScore cy) (by
    rcases streakScore_mem cy with h | h | h | h | h <;> simp [h])
  obtain ⟨k5, hk5, e5⟩ := score_component_tenths (betaScore b) (by
    rcases betaScore_mem b with h | h | h | h | h <;> simp [h])
  refine ⟨k1 + k2 + k3 + k4 + k5, by omega, ?_⟩
  rw [e1, e2, e3, e4, e5]
  push_cast
  ring

lemma comp_bounds (q : ℚ)
    (h : q = 0 ∨ q = 0.3 ∨ q = 0.5 ∨ q = 0.7 ∨ q = 0.8 ∨ q = 1) :
    0 ≤ q ∧ q ≤ 1 := by
  rcases h with h | h | h | h | h | h <;> rw [h] <;> norm_num

/-- C9: for every input, the safety score is in [0, 5], equals the sum of the
five component scores (each individually in [0, 1]), and the rating and
recommendation strings are the fixed threshold functions of that score. -/
theorem claim_C9_safety_score (dy pr g : Option ℚ) (cy : ℤ) (b : Option ℚ) :
    (0 ≤ (calculate_safety_score dy pr g cy b).1 ∧
      (calculate_safety_score dy pr g cy b).1 ≤ 5) ∧
    (calculate_safety_score dy pr g cy b).1
      = yieldScore dy + payoutScore pr dy + growthScore g + streakScore cy + betaScore b ∧
    (0 ≤ yieldScore dy ∧ yieldScore dy ≤ 1) ∧
    (0 ≤ payoutScore pr dy ∧ payoutScore pr dy ≤ 1) ∧
    (0 ≤ growthScore g ∧ growthScore g ≤ 1) ∧
    (0 ≤ streakScore cy ∧ streakScore cy ≤ 1) ∧
    (0 ≤ betaScore b ∧ betaScore b ≤ 1) ∧
    (calculate_safety_score dy pr g cy b).2.1
      = ratingOf (calculate_safety_score dy pr g cy b).1 ∧
    (calculate_safety_score dy pr g cy b).2.2
      = recommendationOf (calculate_safety_score dy pr g cy b).1 := by
  set r := calculate_safety_score dy pr g cy b with hrdef
  obtain ⟨K, hK, hsum⟩ := safety_raw_tenths dy pr g cy b
  have hround : round2 (yieldScore dy + payoutScore pr dy + growthScore g
      + streakScore cy + betaScore b)
      = yieldScore dy + payoutScore pr dy + growthScore g + streakScore cy + betaScore b := by
    rw [hsum, round2_nat_tenths]
  have hr1 : r.1 = yieldScore dy + payoutScore pr dy + growthScore g
      + streakScore cy + betaScore b := by
    show round2 _ = _
    exact hround
  have h1 := comp_bounds (yieldScore dy) (by
    rcases yieldScore_mem dy with h | h | h | h <;> simp [h])
  have h2 := comp_bounds (payoutScore pr dy) (by
    rcases payoutScore_mem pr dy with h | h | h | h | h <;> simp [h])
  have h3 := comp_bounds (growthScore g) (by
    rcases growthScore_mem g with h | h | h | h <;> simp [h])
  have h4 := comp_bounds (streakScore cy) (by
    rcases streakScore_mem cy with h | h | h | h | h <;> simp [h])
  have h5 := comp_bounds (betaScore b) (by
    rcases betaScore_mem b with h | h | h | h | h <;> simp [h])
  refine ⟨⟨?_, ?_⟩, hr1, h1, h2, h3, h4, h5, ?_, ?_⟩
  · rw [hr1]; linarith [h1.1, h2.1, h3.1, h4.1, h5.1]
  · rw [hr1]; linarith [h1.2, h2.2, h3.2, h4.2, h5.2]
  · show ratingOf _ = ratingOf r.1
    rw [hr1]
  · show recommendationOf _ = recommendationOf r.1
    rw [hr1]

/-- C6: stop-loss price for the percentage method, value 10, long direction,
entry 100 is exactly 90. -/
theorem claim_C6_stop_loss :
    calculate_stop_loss 100 "percentage" 10 none none "long" = some 90 := by
  norm_num [calculate_stop_loss]
  decide

/-! ## add_annual_eps_column.py / force_add_column.py

The table schema is the list of column names returned by
`PRAGMA table_info(YearlyDividends)`; `ALTER TABLE .. ADD COLUMN` appends a
name.  Database errors are modelled by an outcome oracle describing what
each `sqlite3.connect`/execute attempt raises. -/

/-- Outcome of one attempt to open and use the database. -/
inductive DbOutcome
  | ok
  | lockedErr
  | otherErr
deriving DecidableEq, Repr

/-- Result of a migration script run: the returned Bool, the resulting
schema, the number of connection attempts made, and the sleeps performed
(in seconds). -/
structure MigrationRun where
  success : Bool
  columns : List String
  attempts : Nat
  sleeps : List Nat
deriving DecidableEq, Repr

/-- Embedding of `add_annual_eps_column.add_column`: a single attempt; an
`OperationalError` mentioning `locked` (or any other error) returns `False`
immediately, with no retry and no sleep. -/
def add_annual_eps_add_column (outcome : DbOutcome) (columns : List String) :
    MigrationRun :=
  match outcome with
  | .ok =>
      if "AnnualEPS" ∈ columns then ⟨true, columns, 1, []⟩
      else ⟨true, columns ++ ["AnnualEPS"], 1, []⟩
  | .lockedErr => ⟨false, columns, 1, []⟩
  | .otherErr => ⟨false, columns, 1, []⟩

/-- Retry loop of `force_add_column.add_column` (`max_retries = 3`): on a
locked error before the last attempt, sleep 2 seconds and retry; on the
last attempt return `False`.  `outcome n` is what attempt `n` raises. -/
def forceAddColumnGo (outcome : Nat → DbOutcome) (columns : List String)
    (maxRetries : Nat) (attempt : Nat) (sleeps : List Nat) : MigrationRun :=
  if attempt < maxRetries then
    match outcome attempt with
    | .ok =>
        if "AnnualEPS" ∈ columns then ⟨true, columns, attempt + 1, sleeps⟩
        else ⟨true, columns ++ ["AnnualEPS"], attempt + 1, sleeps⟩
    | .lockedErr =>
        if attempt < maxRetries - 1 then
          forceAddColumnGo outcome columns maxRetries (attempt + 1) (sleeps ++ [2])
        else ⟨false, columns, attempt + 1, sleeps⟩
    | .otherErr => ⟨false, columns, attempt + 1, sleeps⟩
  else ⟨false, columns, attempt, sleeps⟩
termination_by maxRetries - attempt
decreasing_by omega

/-- Embedding of `force_add_column.add_column`. -/
def force_add_column (outcome : Nat → DbOutcome) (columns : List String) :
    MigrationRun :=
  forceAddColumnGo outcome columns 3 0 []

/-- C3: running `add_annual_eps_column.add_column` twice in sequence (both
runs succeeding at the database level) is idempotent: both runs return
`True` and afterwards the schema contains `AnnualEPS` exactly once.  The
hypothesis that the starting schema holds the column at most once is
SQLite's column-name uniqueness. -/
theorem claim_C3_idempotent (columns : List String)
    (h : columns.count "AnnualEPS" ≤ 1) :
    (add_annual_eps_add_column .ok columns).success = true ∧
    (add_annual_eps_add_column .ok
      (add_annual_eps_add_column .ok columns).columns).success = true ∧
    (add_annual_eps_add_column .ok
      (add_annual_eps_add_column .ok columns).columns).columns.count "AnnualEPS" = 1 ∧
    (add_annual_eps_add_column .ok
        (add_annual_eps_add_column .ok columns).columns).columns
      = (add_annual_eps_add_column .ok columns).columns := by
  by_cases hmem : "AnnualEPS" ∈ columns
  · have hr1 : add_annual_eps_add_column .ok columns = ⟨true, columns, 1, []⟩ := by
      simp [add_annual_eps_add_column, hmem]
    have hcount : 1 ≤ columns.count "AnnualEPS" := by
      simpa using List.count_pos_iff.mpr hmem
    have hc : (add_annual_eps_add_column .ok columns).columns = columns := by
      rw [hr1]
    rw [hc, hr1]
    refine ⟨rfl, rfl, ?_, rfl⟩
    show columns.count "AnnualEPS" = 1
    omega
  · have hzero : columns.count "AnnualEPS" = 0 := by
      simpa using List.count_eq_zero.mpr hmem
    have hr1 : add_annual_eps_add_column .ok columns
        = ⟨true, columns ++ ["AnnualEPS"], 1, []⟩ := by
      simp [add_annual_eps_add_column, hmem]
    have hmem2 : "AnnualEPS" ∈ columns ++ ["AnnualEPS"] := by simp
    have hr2 : add_annual_eps_add_column .ok (columns ++ ["AnnualEPS"])
        = ⟨true, columns ++ ["AnnualEPS"], 1, []⟩ := by
      simp [add_annual_eps_add_column, hmem2]
    have hc : (add_annual_eps_add_column .ok columns).columns
        = columns ++ ["AnnualEPS"] := by
      rw [hr1]
    rw [hc, hr2, hr1]
    refine ⟨rfl, rfl, ?_, rfl⟩
    show (columns ++ ["AnnualEPS"]).count "AnnualEPS" = 1
    simp [List.count_append, hzero]

/-- Witness for C3 at a concrete schema. -/
theorem claim_C3_witness :
    (["Id", "Symbol", "Year"].count "AnnualEPS" ≤ 1) ∧
    ((add_annual_eps_add_column .ok
        (add_annual_eps_add_column .ok ["Id", "Symbol", "Year"]).columns).columns.count
      "AnnualEPS" = 1) := by
  refine ⟨by decide, ?_⟩
  exact (claim_C3_idempotent ["Id", "Symbol", "Year"] (by decide)).2.2.1

/-- C7: when every connection attempt raises a locked `OperationalError`,
`force_add_column.add_column` makes exactly 3 attempts with a 2-second
sleep between consecutive attempts, returns `False` without touching the
schema, while `add_annual_eps_column.add_column` fails fatally on its
single attempt with no retry and no sleep. -/
theorem claim_C7_lock_retry (columns : List String) :
    force_add_column (fun _ => .lockedErr) columns
      = ⟨false, columns, 3, [2, 2]⟩ ∧
    add_annual_eps_add_column .lockedErr columns = ⟨false, columns, 1, []⟩ := by
  constructor
  · show forceAddColumnGo _ columns 3 0 [] = _
    rw [forceAddColumnGo]
    norm_num
    rw [forceAddColumnGo]
    norm_num
    rw [forceAddColumnGo]
    norm_num
  · rfl

/-! ## bulk_import_stocks.py (lines 50-103)

`process_stock` performs the per-symbol Yahoo fetch/update; it is modelled
by an oracle `procResult : String → Bool` giving its return value.  The
`existing` list models the result of `SELECT Symbol FROM DividendModels`.
The embedding returns the statistics dictionary together with the list of
symbols actually passed to `updater.process_stock`, in order. -/

/-- One entry of the stock list loaded from the JSON file. -/
structure StockInfo where
  symbol : String
  name : String
deriving DecidableEq, Repr

/-- Import statistics accumulated by `bulk_import`. -/
structure ImportStats where
  total : Nat
  skippedExisting : Nat
  succeeded : Nat
  failed : Nat
  failedSymbols : List String
deriving DecidableEq, Repr

/-- Body of the `for idx, stock_info in enumerate(stocks, 1)` loop. -/
def bulkImportStep (existing : List String) (skipExisting : Bool)
    (procResult : String → Bool) (acc : ImportStats × List String)
    (stock : StockInfo) : ImportStats × List String :=
  let stats := acc.1
  let processed := acc.2
  if skipExisting ∧ stock.symbol ∈ existing then
    ({ stats with skippedExisting := stats.skippedExisting + 1 }, processed)
  else
    if procResult stock.symbol then
      ({ stats with succeeded := stats.succeeded + 1 },
        processed ++ [stock.symbol])
    else
      ({ stats with
          failed := stats.failed + 1
          failedSymbols := stats.failedSymbols ++ [stock.symbol] },
        processed ++ [stock.symbol])

/-- Embedding of `bulk_import` (the loop over the loaded stock list; file
I/O, logging, sleeps and the ETA printout carry no data).  `if limit:` is
Python truthiness, so `limit = 0` does not truncate. -/
def bulk_import (stocks : List StockInfo) (limit : Option Nat)
    (skipExisting : Bool) (existing : List String)
    (procResult : String → Bool) : ImportStats × List String :=
  let stocks :=
    match limit with
    | some l => if l ≠ 0 then stocks.take l else stocks
    | none => stocks
  let init : ImportStats := ⟨stocks.length, 0, 0, 0, []⟩
  stocks.foldl (bulkImportStep existing skipExisting procResult) (init, [])

/-- Invariant of the bulk-import fold: processed symbols are exactly the
non-existing ones, skips count the existing ones, successes and failures
count the rest. -/
lemma bulkImport_fold (existing : List String) (procResult : String → Bool)
    (l : List StockInfo) :
    ∀ stats : ImportStats, ∀ processed : List String,
      (l.foldl (bulkImportStep existing true procResult) (stats, processed)).2
          = processed
            ++ (l.filter (fun s => ¬ s.symbol ∈ existing)).map (fun s => s.symbol) ∧
      (l.foldl (bulkImportStep existing true procResult) (stats, processed)).1.skippedExisting
          = stats.skippedExisting + (l.filter (fun s => s.symbol ∈ existing)).length ∧
      (l.foldl (bulkImportStep existing true procResult) (stats, processed)).1.succeeded
            + (l.foldl (bulkImportStep existing true procResult) (stats, processed)).1.failed
          = stats.succeeded + stats.failed
            + (l.filter (fun s => ¬ s.symbol ∈ existing)).length := by
  induction l with
  | nil => intro stats processed; simp
  | cons hd tl ih =>
      intro stats processed
      by_cases hmem : hd.symbol ∈ existing
      · have hstep : bulkImportStep existing true procResult (stats, processed) hd
            = ({ stats with skippedExisting := stats.skippedExisting + 1 }, processed) := by
          simp [bulkImportStep, hmem]
        obtain ⟨h1, h2, h3⟩ :=
          ih { stats with skippedExisting := stats.skippedExisting + 1 } processed
        refine ⟨?_, ?_, ?_⟩
        · simpa [hstep, hmem] using h1
        · simp only [List.foldl_cons, hstep]
          rw [h2]
          simp [hmem]
          omega
        · simp only [List.foldl_cons, hstep]
          rw [h3]
          simp [hmem]
      · by_cases hok : procResult hd.symbol
        · have hstep : bulkImportStep existing true procResult (stats, processed) hd
              = ({ stats with succeeded := stats.succeeded + 1 },
                  processed ++ [hd.symbol]) := by
            simp [bulkImportStep, hmem, hok]
          obtain ⟨h1, h2, h3⟩ :=
            ih { stats with succeeded := stats.succeeded + 1 } (processed ++ [hd.symbol])
          refine ⟨?_, ?_, ?_⟩
          · simp only [List.foldl_cons, hstep]
            rw [h1]
            simp [hmem]
          · simp only [List.foldl_cons, hstep]
            rw [h2]
            simp [hmem]
          · simp only [List.foldl_cons, hstep]
            rw [h3]
            simp [hmem]
            omega
        · have hstep : bulkImportStep existing true procResult (stats, processed) hd
              = ({ stats with
                    failed := stats.failed + 1
                    failedSymbols := stats.failedSymbols ++ [hd.symbol] },
                  processed ++ [hd.symbol]) := by
            simp [bulkImportStep, hmem, hok]
          obtain ⟨h1, h2, h3⟩ :=
            ih { stats with
                  failed := stats.failed + 1
                  failedSymbols := stats.failedSymbols ++ [hd.symbol] }
              (processed ++ [hd.symbol])
          refine ⟨?_, ?_, ?_⟩
          · simp only [List.foldl_cons, hstep]
            rw [h1]
            simp [hmem]
          · simp only [List.foldl_cons, hstep]
            rw [h2]
            simp [hmem]
          · simp only [List.foldl_cons, hstep]
            rw [h3]
            simp [hmem]
            omega

/-- C2: with `skip_existing=True`, a symbol already present in
`DividendModels` is never passed to `updater.process_stock`, and such
entries are counted only in `skipped_existing` (successes plus failures
count exactly the non-existing entries). -/
theorem claim_C2_skip_existing (stocks : List StockInfo) (limit : Option Nat)
    (existing : List String) (procResult : String → Bool) (sym : String)
    (hsym : sym ∈ existing) :
    let r := bulk_import stocks limit true existing procResult
    let effective :=
      match limit with
      | some l => if l ≠ 0 then stocks.take l else stocks
      | none => stocks
    sym ∉ r.2 ∧
    r.1.skippedExisting = (effective.filter (fun s => s.symbol ∈ existing)).length ∧
    r.1.succeeded + r.1.failed
      = (effective.filter (fun s => ¬ s.symbol ∈ existing)).length := by
  intro r effective
  have heff : r = effective.foldl (bulkImportStep existing true procResult)
      (⟨effective.length, 0, 0, 0, []⟩, []) := by
    show bulk_import stocks limit true existing procResult = _
    unfold bulk_import
    rfl
  obtain ⟨h1, h2, h3⟩ := bulkImport_fold existing procResult effective
    ⟨effective.length, 0, 0, 0, []⟩ []
  refine ⟨?_, ?_, ?_⟩
  · rw [heff, h1]
    intro hc
    simp only [List.nil_append, List.mem_map, List.mem_filter] at hc
    obtain ⟨s, hs, hss⟩ := hc
    rw [hss] at hs
    simp only [decide_not] at hs
    have := hs.2
    simp only [Bool.not_eq_eq_eq_not, Bool.not_true, decide_eq_false_iff_not] at this
    exact this hsym
  · rw [heff, h2]
    simp
  · rw [heff, h3]
    simp

/-- Witness for C2 at a concrete stock list and database. -/
theorem claim_C2_witness :
    "AAPL" ∈ ["AAPL", "MSFT"] ∧
    (bulk_import [⟨"AAPL", "Apple"⟩, ⟨"KO", "Coke"⟩] none true ["AAPL", "MSFT"]
        (fun _ => true)).2 = ["KO"] ∧
    "AAPL" ∉ (bulk_import [⟨"AAPL", "Apple"⟩, ⟨"KO", "Coke"⟩] none true ["AAPL", "MSFT"]
        (fun _ => true)).2 := by
  refine ⟨by decide, by rfl, ?_⟩
  exact (claim_C2_skip_existing [⟨"AAPL", "Apple"⟩, ⟨"KO", "Coke"⟩] none
    ["AAPL", "MSFT"] (fun _ => true) "AAPL" (by decide)).1

/-! ## update_stocks_from_yahoo.py: save_yearly_data (lines 443-481)

The `YearlyDividends` table is a list of rows in insertion order; the
fetched data's `yearly_dividends` and `annual_eps` dictionaries are
association lists with distinct keys (years).  `DELETE FROM YearlyDividends
WHERE DividendModelId = ?` is a filter; `INSERT` appends. -/

/-- One row of the `YearlyDividends` table. -/
structure YearlyRow where
  modelId : Nat
  symbol : String
  year : Nat
  totalDividend : ℚ
  paymentCount : Nat
  annualEPS : Option ℚ
deriving DecidableEq, Repr

/-- Dictionary lookup (`dict.get(year)`). -/
def alookup (m : List (Nat × ℚ)) (y : Nat) : Option ℚ :=
  (m.find? (fun p => p.1 = y)).map (fun p => p.2)

/-- Insertion into an ascending list, for `sorted(all_years)`. -/
def insertSortedNat (y : Nat) : List Nat → List Nat
  | [] => [y]
  | x :: xs => if y ≤ x then y :: x :: xs else x :: insertSortedNat y xs

/-- Ascending sort of the year set. -/
def sortNat (l : List Nat) : List Nat :=
  l.foldr insertSortedNat []

/-- Loop body of `save_yearly_data`: build the row inserted for one year,
or `none` when there is neither dividend nor (truthy) EPS data. -/
def yearlyRowFor (modelId : Nat) (symbol : String)
    (yearly_dividends annual_eps : List (Nat × ℚ)) (year : Nat) :
    Option YearlyRow :=
  let dividend_amount := (alookup yearly_dividends year).getD 0
  let eps_amount := alookup annual_eps year
  let payment_count := if 0 < dividend_amount then 1 else 0
  if 0 < dividend_amount ∨ truthy eps_amount then
    some { modelId := modelId
           symbol := symbol
           year := year
           totalDividend := if dividend_amount ≠ 0 then dividend_amount else 0
           paymentCount := payment_count
           annualEPS := if truthy eps_amount then eps_amount else none }
  else none

/-- The rows inserted for a stock by one refresh, in insertion order. -/
def freshYearlyRows (modelId : Nat) (symbol : String)
    (yearly_dividends annual_eps : List (Nat × ℚ)) : List YearlyRow :=
  let all_years := sortNat
    ((yearly_dividends.map (fun p => p.1) ++ annual_eps.map (fun p => p.1)).dedup)
  all_years.filterMap (yearlyRowFor modelId symbol yearly_dividends annual_eps)

/-- Embedding of `StockDataUpdater.save_yearly_data`: delete every yearly
row of the stock, then insert rows built solely from the fetched data. -/
def save_yearly_data (table : List YearlyRow) (modelId : Nat) (symbol : String)
    (yearly_dividends annual_eps : List (Nat × ℚ)) : List YearlyRow :=
  let table := table.filter (fun r => r.modelId ≠ modelId)
  table ++ freshYearlyRows modelId symbol yearly_dividends annual_eps

lemma freshYearlyRows_modelId (modelId : Nat) (symbol : String)
    (yd ae : List (Nat × ℚ)) :
    ∀ r ∈ freshYearlyRows modelId symbol yd ae, r.modelId = modelId := by
  intro r hr
  simp only [freshYearlyRows, List.mem_filterMap] at hr
  obtain ⟨y, _, hy⟩ := hr
  simp only [yearlyRowFor] at hy
  split_ifs at hy <;> first | (cases hy; rfl) | cases hy

/-- C4: a refresh of one stock replaces exactly that stock's
`YearlyDividends` rows with rows built solely from the freshly fetched
data, and leaves every other stock's rows unchanged (in order). -/
theorem claim_C4_refresh_frame (table : List YearlyRow) (modelId : Nat)
    (symbol : String) (yearly_dividends annual_eps : List (Nat × ℚ)) :
    let t2 := save_yearly_data table modelId symbol yearly_dividends annual_eps
    t2.filter (fun r => r.modelId ≠ modelId)
        = table.filter (fun r => r.modelId ≠ modelId) ∧
    t2.filter (fun r => r.modelId = modelId)
        = freshYearlyRows modelId symbol yearly_dividends annual_eps ∧
    ∀ r ∈ t2, r.modelId = modelId →
      r ∈ freshYearlyRows modelId symbol yearly_dividends annual_eps := by
  intro t2
  have hfresh := freshYearlyRows_modelId modelId symbol yearly_dividends annual_eps
  have ht2 : t2 = table.filter (fun r => r.modelId ≠ modelId)
      ++ freshYearlyRows modelId symbol yearly_dividends annual_eps := rfl
  refine ⟨?_, ?_, ?_⟩
  · rw [ht2, List.filter_append]
    have h1 : (table.filter (fun r => decide (r.modelId ≠ modelId))).filter
        (fun r => decide (r.modelId ≠ modelId))
        = table.filter (fun r => decide (r.modelId ≠ modelId)) := by
      rw [List.filter_filter]
      apply List.filter_congr
      intro r _
      simp
    have h2 : (freshYearlyRows modelId symbol yearly_dividends annual_eps).filter
        (fun r => decide (r.modelId ≠ modelId)) = [] := by
      rw [List.filter_eq_nil_iff]
      intro r hr
      simp [hfresh r hr]
    rw [h1, h2, List.append_nil]
  · rw [ht2, List.filter_append]
    have h1 : (table.filter (fun r => decide (r.modelId ≠ modelId))).filter
        (fun r => decide (r.modelId = modelId)) = [] := by
      rw [List.filter_eq_nil_iff]
      intro r hr
      have h2 := (List.mem_filter.mp hr).2
      simp only [decide_not, Bool.not_eq_eq_eq_not, Bool.not_true,
        decide_eq_false_iff_not] at h2
      simp [h2]
    have h2 : (freshYearlyRows modelId symbol yearly_dividends annual_eps).filter
        (fun r => decide (r.modelId = modelId))
        = freshYearlyRows modelId symbol yearly_dividends annual_eps :=
      List.filter_eq_self.mpr (fun r hr => by simp [hfresh r hr])
    rw [h1, h2, List.nil_append]
  · intro r hr hid
    rw [ht2] at hr
    rcases List.mem_append.mp hr with h | h
    · exfalso
      have := (List.mem_filter.mp h).2
      simp only [decide_not, Bool.not_eq_eq_eq_not, Bool.not_true,
        decide_eq_false_iff_not] at this
      exact this hid
    · exact h

/-! ## Technical indicators (backtest_single_commodity.py lines 19-50)

A pandas series is a `List (Option ℚ)` (`none` = NaN).  `rolling(window=p)
.mean()` yields `none` until the window is full or while it contains a
NaN, exactly as pandas with the default `min_periods`. -/

/-- A pandas float series; `none` models NaN. -/
abbrev PSeries := List (Option ℚ)

/-- `series.rolling(window=period).mean()`. -/
def rollingMean (xs : PSeries) (period : Nat) : PSeries :=
  (List.range xs.length).map (fun i =>
    if period ≤ i + 1 then
      let w := (xs.take (i + 1)).drop (i + 1 - period)
      if w.all Option.isSome then some ((w.filterMap id).sum / period) else none
    else none)

/-- Embedding of `calculate_sma` (`prices.rolling(window=period).mean()`);
the input `Close` column has no NaN. -/
def calculate_sma (prices : List ℚ) (period : Nat) : PSeries :=
  rollingMean (prices.map some) period

/-- Recursion of `ewm(span, adjust=False).mean()`:
`y_i = (1 - alpha) * y_(i-1) + alpha * x_i`. -/
def emaGo (alpha : ℚ) (prev : ℚ) : List ℚ → List ℚ
  | [] => []
  | x :: xs =>
      let y := (1 - alpha) * prev + alpha * x
      y :: emaGo alpha y xs

/-- Embedding of `calculate_ema`
(`prices.ewm(span=period, adjust=False).mean()`, `alpha = 2/(span+1)`). -/
def calculate_ema (prices : List ℚ) (span : Nat) : List ℚ :=
  match prices with
  | [] => []
  | x :: xs => x :: emaGo (2 / ((span : ℚ) + 1)) x xs

/-- `prices.diff()`: NaN first, then successive differences. -/
def diffO (prices : List ℚ) : PSeries :=
  match prices with
  | [] => []
  | _ :: rest => none :: List.zipWith (fun b a => some (b - a)) rest prices

/-- `delta.where(delta > 0, 0)`: keep positive deltas, else 0.  A NaN
fails the comparison and is likewise replaced by 0, as in pandas. -/
def whereGtZero (xs : PSeries) : PSeries :=
  xs.map (fun o =>
    match o with
    | some v => if 0 < v then some v else some 0
    | none => some 0)

/-- `-delta.where(delta < 0, 0)`: negated negative deltas, else 0. -/
def negWhereLtZero (xs : PSeries) : PSeries :=
  xs.map (fun o =>
    match o with
    | some v => if v < 0 then some (-v) else some 0
    | none => some 0)

/-- Elementwise float division: NaN propagates and a zero denominator is
undefined (`none`); floating point yields NaN or ±inf there, and every
division the theorems below reach is a 0/0, where both give NaN. -/
def divO (a b : Option ℚ) : Option ℚ :=
  match a, b with
  | some x, some y => if y = 0 then none else some (x / y)
  | _, _ => none

/-- Embedding of `calculate_rsi`:
`rsi = 100 - 100 / (1 + gain_avg / loss_avg)` with NaN propagation. -/
def calculate_rsi (prices : List ℚ) (period : Nat) : PSeries :=
  let delta := diffO prices
  let gain := rollingMean (whereGtZero delta) period
  let loss := rollingMean (negWhereLtZero delta) period
  let rs := List.zipWith divO gain loss
  rs.map (fun o =>
    match o with
    | some r => if (1 : ℚ) + r = 0 then none else some (100 - 100 / (1 + r))
    | none => none)

lemma filterMap_id_replicate (k : Nat) (x : ℚ) :
    (List.replicate k (some x)).filterMap id = List.replicate k x := by
  induction k with
  | zero => rfl
  | succ m ih => simp [List.replicate_succ, ih]

lemma zipWith_self_map {α β : Type} (f : α → α → β) (l : List α) :
    List.zipWith f l l = l.map (fun a => f a a) := by
  induction l with
  | nil => rfl
  | cons hd tl ih => simp [ih]

/-- Rolling mean of a constant (NaN-free) series: the constant once the
window is full, `none` before. -/
lemma rollingMean_replicate_get (x : ℚ) (n period i : Nat)
    (hp : 1 ≤ period) (hi : i < n) :
    (rollingMean (List.replicate n (some x)) period).get? i
      = some (if period ≤ i + 1 then some x else none) := by
  have hlen : (List.replicate n (some x) : PSeries).length = n := by simp
  unfold rollingMean
  rw [List.get?_map, hlen, List.get?_range hi]
  simp only [Option.map_some']
  congr 1
  by_cases hpi : period ≤ i + 1
  · have hw : ((List.replicate n (some x) : PSeries).take (i + 1)).drop (i + 1 - period)
        = List.replicate period (some x) := by
      rw [List.take_replicate, List.drop_replicate]
      congr 1
      omega
    simp only [hpi, if_true, hw]
    have hall : (List.replicate period (some x)).all Option.isSome = true := by
      simp [List.all_eq_true, List.mem_replicate]
    rw [hall, if_pos rfl, filterMap_id_replicate]
    have hsum : (List.replicate period x).sum = (period : ℚ) * x := by
      rw [List.sum_replicate, nsmul_eq_mul]
    rw [hsum]
    have hper : (period : ℚ) ≠ 0 := Nat.cast_ne_zero.mpr (by omega)
    rw [mul_div_cancel_left₀ x hper]
  · simp [hpi]

lemma emaGo_const (a c : ℚ) (m : Nat) :
    emaGo a c (List.replicate m c) = List.replicate m c := by
  induction m with
  | zero => rfl
  | succ k ih =>
      have hy : (1 - a) * c + a * c = c := by ring
      simp only [List.replicate_succ, emaGo, hy, ih]

lemma zipWith_replicate_le {α β : Type} (f : α → α → β) (a : α) :
    ∀ m n : Nat, m ≤ n →
      List.zipWith f (List.replicate m a) (List.replicate n a)
        = List.replicate m (f a a)
  | 0, _, _ => by simp
  | m + 1, 0, h => by omega
  | m + 1, n + 1, h => by
      simp only [List.replicate_succ, List.zipWith_cons_cons]
      rw [zipWith_replicate_le f a m n (by omega)]

lemma whereGtZero_diff_const (c : ℚ) (n : Nat) :
    whereGtZero (diffO (List.replicate n c)) = List.replicate n (some 0) := by
  cases n with
  | zero => rfl
  | succ m =>
      have hd : diffO (List.replicate (m + 1) c)
          = none :: List.replicate m (some 0) := by
        rw [List.replicate_succ]
        show none :: List.zipWith (fun b a => some (b - a)) (List.replicate m c)
            (c :: List.replicate m c) = _
        rw [← List.replicate_succ,
          zipWith_replicate_le (fun b a => some (b - a)) c m (m + 1) (by omega)]
        simp
      rw [hd]
      show some 0 :: (List.replicate m (some 0)).map _ = _
      rw [List.map_replicate, List.replicate_succ]
      norm_num

lemma negWhereLtZero_diff_const (c : ℚ) (n : Nat) :
    negWhereLtZero (diffO (List.replicate n c)) = List.replicate n (some 0) := by
  cases n with
  | zero => rfl
  | succ m =>
      have hd : diffO (List.replicate (m + 1) c)
          = none :: List.replicate m (some 0) := by
        rw [List.replicate_succ]
        show none :: List.zipWith (fun b a => some (b - a)) (List.replicate m c)
            (c :: List.replicate m c) = _
        rw [← List.replicate_succ,
          zipWith_replicate_le (fun b a => some (b - a)) c m (m + 1) (by omega)]
        simp
      rw [hd]
      show some 0 :: (List.replicate m (some 0)).map _ = _
      rw [List.map_replicate, List.replicate_succ]
      norm_num

/-- C5: over a constant price series, the SMA equals the constant at every
index with a full window, the EMA equals the constant at every index, and
the RSI is NaN at every index (gains and losses are both zero, so
`rs = 0/0` is undefined). -/
theorem claim_C5_constant_series (c : ℚ) (n period span i : Nat) :
    (1 ≤ period → period ≤ i + 1 → i < n →
      (calculate_sma (List.replicate n c) period).get? i = some (some c)) ∧
    calculate_ema (List.replicate n c) span = List.replicate n c ∧
    (i < n → (calculate_rsi (List.replicate n c) 14).get? i = some none) := by
  refine ⟨?_, ?_, ?_⟩
  · intro hp hpi hi
    unfold calculate_sma
    rw [List.map_replicate, rollingMean_replicate_get c n period i hp hi, if_pos hpi]
  · cases n with
    | zero => rfl
    | succ m =>
        rw [List.replicate_succ]
        show _ :: emaGo _ c (List.replicate m c) = _
        rw [emaGo_const]
  · intro hi
    simp only [calculate_rsi]
    rw [whereGtZero_diff_const, negWhereLtZero_diff_const,
      zipWith_self_map divO (rollingMean (List.replicate n (some 0)) 14)]
    rw [List.get?_map, List.get?_map,
      rollingMean_replicate_get 0 n 14 i (by norm_num) hi]
    by_cases h14 : 14 ≤ i + 1 <;> simp [h14, divO]

/-- Witness for C5 at a concrete constant series. -/
theorem claim_C5_witness :
    (calculate_sma (List.replicate 20 (5 : ℚ)) 3).get? 10 = some (some 5) ∧
    calculate_ema (List.replicate 20 (5 : ℚ)) 12 = List.replicate 20 5 ∧
    (calculate_rsi (List.replicate 20 (5 : ℚ)) 14).get? 10 = some none := by
  obtain ⟨h1, h2, h3⟩ := claim_C5_constant_series 5 20 3 12 10
  exact ⟨h1 (by norm_num) (by norm_num) (by norm_num), h2, h3 (by norm_num)⟩

/-! ## strategy_buy_hold (backtest_single_commodity.py lines 156-256)

The DataFrame rows carry a date index and the Close column; the `ATR14`
and `Volatility20` columns are computed upstream with `log`/`sqrt`
(irrational), so they enter the embedding as given `Option ℚ` columns
(`none` = NaN); the strategies only pass them to `calculate_stop_loss`.
A NaN-valued stop price is modelled as `none`: both make the stop-loss
comparison false on every row, and only the recorded `stopLossPrice`
field of the BUY trade distinguishes them (NaN vs null in the JSON).
Money amounts are exact rationals. -/

/-- Calendar date of one DataFrame index entry. -/
structure PDate where
  year : Nat
  month : Nat
  day : Nat
deriving DecidableEq, Repr, Inhabited

/-- Trade direction tag. -/
inductive TradeType
  | BUY
  | SELL
deriving DecidableEq, Repr

/-- One entry of the `trades` list (the dict appended by the strategies). -/
structure Trade where
  date : PDate
  ty : TradeType
  price : ℚ
  contracts : ℤ
  reason : String
  stopLossPrice : Option ℚ
  takeProfitPrice : Option ℚ
  pnl : Option ℚ
  commission : ℚ
  exchangeFees : ℚ
  clearingFees : ℚ
  overnightFinancing : ℚ
deriving DecidableEq, Repr

/-- Contract specifications from `get_commodity_specs`. -/
structure CommoditySpecs where
  specName : String
  contractSize : ℚ
  tickSize : ℚ
  tickValue : ℚ
  margin : ℚ
deriving DecidableEq, Repr

/-- Broker cost profile from `get_cme_costs`. -/
structure CmeCosts where
  commission : ℚ
  exchangeFee : ℚ
  clearingFee : ℚ
  overnightRate : ℚ
  marginRate : ℚ
deriving DecidableEq, Repr

/-- The price DataFrame handed to a strategy. -/
structure DFrame where
  dates : List PDate
  close : List ℚ
  atr : PSeries
  vol : PSeries
deriving Repr

/-- Fallback cost literals of `get_cme_costs` (database lookup failed). -/
def default_cme_costs : CmeCosts :=
  ⟨2.50, 1.50, 0.50, 0.000137, 0.05⟩

/-- `get_commodity_specs` for a symbol not in the table. -/
def default_specs (symbol : String) : CommoditySpecs :=
  ⟨symbol, 1, 0.01, 1, 5000⟩

/-- Per-contract entry/exit cost
(`commission + exchangeFee + clearingFee`). -/
def entryCostPer (costs : CmeCosts) : ℚ :=
  costs.commission + costs.exchangeFee + costs.clearingFee

/-- Python guard `if stop_price and current_price <= stop_price` (a 0.0 or
`None` stop price is falsy). -/
def stopHitB (stop : Option ℚ) (price : ℚ) : Bool :=
  match stop with
  | some s => s ≠ 0 && price ≤ s
  | none => false

/-- `float(stop_price) if stop_price else None`. -/
def stopRecord (stop : Option ℚ) : Option ℚ :=
  match stop with
  | some s => if s ≠ 0 then some s else none
  | none => none

/-- `sum(t.get('commission', 0) + t.get('overnightFinancing', 0) for t in trades)`. -/
def tradesCostSum (ts : List Trade) : ℚ :=
  (ts.map (fun t => t.commission + t.overnightFinancing)).sum

/-- Hold loop of `strategy_buy_hold` over rows 1..n-1: `days_held` is
incremented each iteration and the stop-loss is checked; returns the date
and holding days at the first trigger, or `none` if it never fires. -/
def buyHoldLoop (stop : Option ℚ) : List (PDate × ℚ) → Nat → Option (PDate × Nat)
  | [], _ => none
  | (d, p) :: rest, daysHeld =>
      if stopHitB stop p then some (d, daysHeld + 1)
      else buyHoldLoop stop rest (daysHeld + 1)

/-- Embedding of `strategy_buy_hold`.  The source indexes `iloc[0]` /
`iloc[-1]`, so it presumes a nonempty frame (the caller checks
`df.empty`); on an empty frame this embedding returns using defaults
instead of raising. -/
def strategy_buy_hold (df : DFrame) (capital : ℚ) (specs : CommoditySpecs)
    (costs : CmeCosts) (slMethod : String) (slValue : ℚ) :
    List Trade × ℚ × ℚ :=
  let entry_price := df.close.headD 0
  let contracts : ℤ := pyInt (capital / specs.margin)
  if contracts < 1 then ([], 0, capital)
  else
    let atr0 := df.atr.headD none
    let vol0 := df.vol.headD none
    let stop_price := calculate_stop_loss entry_price slMethod slValue atr0 vol0 "long"
    let entry_costs := entryCostPer costs * (contracts : ℚ)
    let buyTrade : Trade :=
      { date := df.dates.headD default
        ty := .BUY
        price := entry_price
        contracts := contracts
        reason := "Initial entry"
        stopLossPrice := stopRecord stop_price
        takeProfitPrice := none
        pnl := none
        commission := entry_costs
        exchangeFees := 0
        clearingFees := 0
        overnightFinancing := 0 }
    let remaining_capital := capital - specs.margin * (contracts : ℚ) - entry_costs
    match buyHoldLoop stop_price ((df.dates.zip df.close).drop 1) 0 with
    | some (d, daysHeld) =>
        let exit_price := stop_price.getD 0
        let exit_costs := entryCostPer costs * (contracts : ℚ)
        let overnight_costs :=
          specs.margin * (contracts : ℚ) * costs.overnightRate * (daysHeld : ℚ)
        let pnl := (exit_price - entry_price) * specs.contractSize * (contracts : ℚ)
        let total_costs := entry_costs + exit_costs + overnight_costs
        let sellTrade : Trade :=
          { date := d
            ty := .SELL
            price := exit_price
            contracts := contracts
            reason := "Stop-loss triggered"
            stopLossPrice := none
            takeProfitPrice := none
            pnl := some pnl
            commission := exit_costs
            exchangeFees := 0
            clearingFees := 0
            overnightFinancing := overnight_costs }
        let final_value :=
          remaining_capital + specs.margin * (contracts : ℚ) + pnl - total_costs
        ([buyTrade, sellTrade], tradesCostSum [buyTrade, sellTrade], final_value)
    | none =>
        let daysHeld := df.close.length - 1
        let exit_price := df.close.getLastD 0
        let exit_costs := entryCostPer costs * (contracts : ℚ)
        let overnight_costs :=
          specs.margin * (contracts : ℚ) * costs.overnightRate * (daysHeld : ℚ)
        let pnl := (exit_price - entry_price) * specs.contractSize * (contracts : ℚ)
        let total_costs := entry_costs + exit_costs + overnight_costs
        let sellTrade : Trade :=
          { date := df.dates.getLastD default
            ty := .SELL
            price := exit_price
            contracts := contracts
            reason := "End of period"
            stopLossPrice := none
            takeProfitPrice := none
            pnl := some pnl
            commission := exit_costs
            exchangeFees := 0
            clearingFees := 0
            overnightFinancing := overnight_costs }
        let final_value :=
          remaining_capital + specs.margin * (contracts : ℚ) + pnl - total_costs
        ([buyTrade, sellTrade], tradesCostSum [buyTrade, sellTrade], final_value)

/-- Concrete two-row frame with a strictly increasing Close column whose
gain (1 cent) is smaller than the default trading costs. -/
def dfC1 : DFrame :=
  ⟨[⟨2024, 1, 1⟩, ⟨2024, 1, 2⟩], [100, 10001 / 100], [none, none], [none, none]⟩

/-- C1 fails as stated: on this strictly increasing series, with at least
one affordable contract, the buy-and-hold final value is strictly below
the initial capital, because commissions, fees and overnight financing
(the repository's own default cost profile) exceed the 1-cent price
gain. -/
theorem claim_C1_counterexample :
    List.Chain' (· < ·) dfC1.close ∧
    2 ≤ dfC1.close.length ∧
    1 ≤ pyInt (5000 / (default_specs "X=F").margin) ∧
    (strategy_buy_hold dfC1 5000 (default_specs "X=F") default_cme_costs
        "percentage" 10).2.2 < 5000 := by
  refine ⟨?_, ?_, ?_, ?_⟩
  · norm_num [dfC1]
  · norm_num [dfC1]
  · norm_num [pyInt, default_specs]
  · norm_num [strategy_buy_hold, dfC1, default_specs, default_cme_costs, pyInt,
      calculate_stop_loss, buyHoldLoop, stopHitB, entryCostPer, stopRecord,
      tradesCostSum, (show "percentage" ≠ "atr" by decide)]

lemma buyHoldLoop_mem (stop : Option ℚ) :
    ∀ (l : List (PDate × ℚ)) (dh : Nat) (d : PDate) (k : Nat),
      buyHoldLoop stop l dh = some (d, k) →
      ∃ p : ℚ, (d, p) ∈ l ∧ stopHitB stop p = true := by
  intro l
  induction l with
  | nil => intro dh d k h; simp [buyHoldLoop] at h
  | cons hd tl ih =>
      intro dh d k h
      obtain ⟨d1, p1⟩ := hd
      rw [buyHoldLoop] at h
      by_cases hs : stopHitB stop p1 = true
      · rw [if_pos hs] at h
        have hd1 : d1 = d := congrArg Prod.fst (Option.some.inj h)
        exact ⟨p1, by rw [← hd1]; exact List.mem_cons_self _ _, hs⟩
      · rw [if_neg hs] at h
        obtain ⟨p, hmem, hhit⟩ := ih (dh + 1) d k h
        exact ⟨p, List.mem_cons_of_mem _ hmem, hhit⟩

lemma zip_drop_one {α β : Type} (l1 : List α) (l2 : List β) :
    (l1.zip l2).drop 1 = (l1.drop 1).zip (l2.drop 1) := by
  cases l1 with
  | nil => simp
  | cons a as =>
      cases l2 with
      | nil => simp
      | cons b bs => simp

lemma getLastD_mem_of_ne_nil {α : Type} (d : α) :
    ∀ (l : List α), l ≠ [] → l.getLastD d ∈ l
  | [], h => absurd rfl h
  | [a], _ => by simp
  | a :: b :: t, _ => by
      rw [List.getLastD_cons]
      exact List.mem_cons_of_mem _ (getLastD_mem_of_ne_nil a (b :: t) (by simp))

lemma pyInt_ge_one (q : ℚ) (h : 1 ≤ q) : 1 ≤ pyInt q := by
  unfold pyInt
  rw [if_pos (le_trans zero_le_one h)]
  exact Int.le_floor.mpr (by exact_mod_cast h)

/-- C1 amended: over a strictly increasing Close series of at least two
rows, with capital covering at least one contract, buy-and-hold ends with
`finalValue > capital` *provided the per-contract trading costs and the
overnight financing rate are zero* (with the repository's nonzero default
cost profile a small enough price gain makes `finalValue < capital`, see
the counterexample); the trade list always contains exactly one BUY and
one SELL. -/
theorem claim_C1_amended (df : DFrame) (capital : ℚ) (specs : CommoditySpecs)
    (costs : CmeCosts) (slMethod : String) (slValue : ℚ)
    (hlen : 2 ≤ df.close.length)
    (hchain : List.Chain' (· < ·) df.close)
    (hmargin : 0 < specs.margin)
    (hcs : 0 < specs.contractSize)
    (hcap : specs.margin ≤ capital)
    (hc1 : costs.commission = 0) (hc2 : costs.exchangeFee = 0)
    (hc3 : costs.clearingFee = 0) (hc4 : costs.overnightRate = 0) :
    let r := strategy_buy_hold df capital specs costs slMethod slValue
    capital < r.2.2 ∧
    (r.1.filter (fun t => t.ty = TradeType.BUY)).length = 1 ∧
    (r.1.filter (fun t => t.ty = TradeType.SELL)).length = 1 := by
  intro r
  have hcon : 1 ≤ pyInt (capital / specs.margin) :=
    pyInt_ge_one _ ((one_le_div hmargin).mpr hcap)
  have hnot : ¬ pyInt (capital / specs.margin) < 1 := not_lt.mpr hcon
  have hkpos : (0 : ℚ) < (pyInt (capital / specs.margin) : ℚ) := by
    have : (1 : ℚ) ≤ (pyInt (capital / specs.margin) : ℚ) := by exact_mod_cast hcon
    linarith
  have hE : entryCostPer costs = 0 := by
    simp [entryCostPer, hc1, hc2, hc3]
  obtain ⟨c, rest, hcl⟩ : ∃ c rest, df.close = c :: rest := by
    cases hcl : df.close with
    | nil => rw [hcl] at hlen; simp at hlen
    | cons c rest => exact ⟨c, rest, rfl⟩
  have hrest : rest ≠ [] := by
    rw [hcl] at hlen
    cases rest with
    | nil => simp at hlen
    | cons _ _ => simp
  have hhead : df.close.headD 0 = c := by rw [hcl]; rfl
  have hpair : ∀ p ∈ rest, c < p := by
    have hp := (List.chain'_iff_pairwise).mp (hcl ▸ hchain)
    exact fun p hp2 => (List.pairwise_cons.mp hp).1 p hp2
  have hentry_lt_exit :
      ∀ res : List Trade × ℚ × ℚ,
        res = strategy_buy_hold df capital specs costs slMethod slValue →
        capital < res.2.2 ∧
        (res.1.filter (fun t => t.ty = TradeType.BUY)).length = 1 ∧
        (res.1.filter (fun t => t.ty = TradeType.SELL)).length = 1 := by
    intro res hres
    rw [hres]
    show capital < (strategy_buy_hold df capital specs costs slMethod slValue).2.2 ∧ _
    simp only [strategy_buy_hold, hhead]
    rw [if_neg hnot]
    rcases hloop : buyHoldLoop
        (calculate_stop_loss c slMethod slValue (df.atr.headD none) (df.vol.headD none) "long")
        ((df.dates.zip df.close).drop 1) 0 with _ | ⟨d, k⟩
    · simp only [hloop]
      have hexit : c < df.close.getLastD 0 := by
        rw [hcl, List.getLastD_cons]
        exact hpair _ (getLastD_mem_of_ne_nil c rest hrest)
      have hpnl : 0 < (df.close.getLastD 0 - c) * specs.contractSize
          * (pyInt (capital / specs.margin) : ℚ) :=
        mul_pos (mul_pos (sub_pos.mpr hexit) hcs) hkpos
      refine ⟨?_, by simp, by simp⟩
      rw [hE, hc4]
      ring_nf
      ring_nf at hpnl
      nlinarith [hpnl]
    · simp only [hloop]
      obtain ⟨p, hmem, hhit⟩ := buyHoldLoop_mem _ _ _ _ _ hloop
      rcases hstop : calculate_stop_loss c slMethod slValue (df.atr.headD none)
          (df.vol.headD none) "long" with _ | s
      · rw [hstop] at hhit
        simp [stopHitB] at hhit
      · rw [hstop] at hhit
        simp only [stopHitB, Bool.and_eq_true, decide_eq_true_eq] at hhit
        have hps : p ≤ s := hhit.2
        have hpmem : p ∈ rest := by
          rw [zip_drop_one] at hmem
          have := (List.of_mem_zip hmem).2
          rw [hcl] at this
          simpa using this
        have hexit : c < s := lt_of_lt_of_le (hpair p hpmem) hps
        have hpnl : 0 < ((some s).getD 0 - c) * specs.contractSize
            * (pyInt (capital / specs.margin) : ℚ) := by
          simp only [Option.getD_some]
          exact mul_pos (mul_pos (sub_pos.mpr hexit) hcs) hkpos
        refine ⟨?_, by simp, by simp⟩
        rw [hE, hc4]
        ring_nf
        ring_nf at hpnl
        nlinarith [hpnl]
  exact hentry_lt_exit r rfl

/-- Witness for the amended C1 at a concrete frame with zero costs. -/
theorem claim_C1_witness :
    5000 < (strategy_buy_hold dfC1 5000 (default_specs "X=F") ⟨0, 0, 0, 0, 0⟩
        "percentage" 10).2.2 ∧
    ((strategy_buy_hold dfC1 5000 (default_specs "X=F") ⟨0, 0, 0, 0, 0⟩
        "percentage" 10).1.filter (fun t => t.ty = TradeType.BUY)).length = 1 ∧
    ((strategy_buy_hold dfC1 5000 (default_specs "X=F") ⟨0, 0, 0, 0, 0⟩
        "percentage" 10).1.filter (fun t => t.ty = TradeType.SELL)).length = 1 :=
  claim_C1_amended dfC1 5000 (default_specs "X=F") ⟨0, 0, 0, 0, 0⟩ "percentage" 10
    (by norm_num [dfC1]) (by norm_num [dfC1, List.chain'_cons]) (by norm_num [default_specs])
    (by norm_num [default_specs]) (by norm_num [default_specs]) rfl rfl rfl rfl

/-! ## main of backtest_single_commodity.py (lines 1135-1173)

`main` parses `sys.argv` positionally (`float(sys.argv[3])`,
`int(sys.argv[4])`) before validating the strategy and stop-loss method,
then prints one JSON dict and exits `0 if result['success'] else 1`.
Only the `success`/`error` fields of the printed objects are observable
here.  The numeric parsers below cover plain decimal numerals, the
fragment of Python's `float()`/`int()` grammar the claims need: on them
they agree with Python, and on a word like `"abc"` both fail
(`ValueError`). -/

/-- Value of a nonempty string of decimal digits. -/
def digitsVal : List Char → Option Nat
  | [] => none
  | cs => cs.foldl (fun acc ch =>
      acc.bind (fun n => if ch.isDigit then some (10 * n + (ch.toNat - 48)) else none))
      (some 0)

/-- Python `int(s)` on plain decimal numerals: optional sign then digits;
anything else raises `ValueError` (`none`). -/
def parseIntS (s : String) : Option Int :=
  match s.toList with
  | '-' :: cs => (digitsVal cs).map (fun n => -(n : Int))
  | '+' :: cs => (digitsVal cs).map (fun n => (n : Int))
  | cs => (digitsVal cs).map (fun n => (n : Int))

/-- Unsigned decimal numeral, optionally with a fractional part. -/
def decBodyVal (cs : List Char) : Option ℚ :=
  let intPart := cs.takeWhile Char.isDigit
  let rest := cs.dropWhile Char.isDigit
  match rest with
  | [] =>
      if intPart = [] then none
      else (digitsVal intPart).map (fun n => (n : ℚ))
  | '.' :: fr =>
      if fr.all Char.isDigit ∧ (intPart ≠ [] ∨ fr ≠ []) then
        some (((digitsVal intPart).getD 0 : ℚ)
          + ((digitsVal fr).getD 0 : ℚ) / (10 : ℚ) ^ fr.length)
      else none
  | _ => none

/-- Python `float(s)` on plain decimal numerals. -/
def parseDecimal (s : String) : Option ℚ :=
  match s.toList with
  | '-' :: cs => (decBodyVal cs).map (fun q => -q)
  | '+' :: cs => decBodyVal cs
  | cs => decBodyVal cs

/-- Result dict returned by `backtest_single_commodity` (it catches its
own exceptions, so it always returns, and every `success: False` return
carries an `error` string). -/
structure BacktestResult where
  success : Bool
  error : Option String
deriving DecidableEq, Repr

/-- Observable outcome of one `main` run: the (`success`, `error`) fields
of each JSON object printed to stdout, and the process exit status. -/
structure MainOutcome where
  printedJson : List (Bool × Option String)
  exitCode : Nat
deriving DecidableEq, Repr

/-- `valid_strategies` of `main`. -/
def valid_strategies : List String :=
  ["buyhold", "sma", "rsi", "macd", "bollinger", "seasonal"]

/-- `valid_stop_methods` of `main`. -/
def valid_stop_methods : List String :=
  ["atr", "percentage", "volatility", "fixed"]

/-- Embedding of `main`.  `bt` is the value of
`backtest_single_commodity(...)`.  An unparseable capital or years
argument is an uncaught `ValueError`: the traceback goes to stderr,
nothing is printed to stdout, and the interpreter exits 1. -/
def pyMain (argv : List String) (bt : BacktestResult) : MainOutcome :=
  if argv.length < 7 then
    ⟨[(false, some "Usage: python backtest_single_commodity.py <symbol> <strategy> <capital> <years> <stopLossMethod> <stopLossValue>")], 1⟩
  else
    match parseDecimal (argv.getD 3 ""), parseIntS (argv.getD 4 "") with
    | some _, some _ =>
        let strategy := (argv.getD 2 "").toLower
        if strategy ∉ valid_strategies then
          ⟨[(false, some "Invalid strategy. Must be one of: buyhold, sma, rsi, macd, bollinger, seasonal")], 1⟩
        else
          let stop_loss_method := (argv.getD 5 "").toLower
          if stop_loss_method ∉ valid_stop_methods then
            ⟨[(false, some "Invalid stop-loss method. Must be one of: atr, percentage, volatility, fixed")], 1⟩
          else
            ⟨[(bt.success, bt.error)], if bt.success then 0 else 1⟩
    | _, _ => ⟨[], 1⟩

/-- C8 fails as stated: with a non-numeric capital argument
(`float("abc")` raises an uncaught `ValueError`), the CLI prints no JSON
object at all and exits 1, contradicting "always prints exactly one JSON
object". -/
theorem claim_C8_counterexample :
    (pyMain ["backtest_single_commodity.py", "GC=F", "rsi", "abc", "5", "atr", "2.0"]
        ⟨true, none⟩).printedJson.length = 0 ∧
    ¬ (pyMain ["backtest_single_commodity.py", "GC=F", "rsi", "abc", "5", "atr", "2.0"]
        ⟨true, none⟩).printedJson.length = 1 ∧
    (pyMain ["backtest_single_commodity.py", "GC=F", "rsi", "abc", "5", "atr", "2.0"]
        ⟨true, none⟩).exitCode = 1 := by
  refine ⟨?_, ?_, ?_⟩ <;> decide

/-- C8 amended: *provided the capital and years arguments parse as
numbers*, the CLI prints exactly one JSON object and exits 0 iff its
`success` field is true, and every failure object carries an `error`
string; with fewer than 7 arguments it prints one `success: false` object
with the usage error and exits 1.  (With an unparseable capital/years
argument it prints nothing and exits 1, see the counterexample.) -/
theorem claim_C8_amended (argv : List String) (bt : BacktestResult)
    (hbt : bt.success = false → bt.error.isSome) :
    (7 ≤ argv.length →
      (parseDecimal (argv.getD 3 "")).isSome →
      (parseIntS (argv.getD 4 "")).isSome →
      let out := pyMain argv bt
      out.printedJson.length = 1 ∧
      (out.exitCode = 0 ↔ (out.printedJson.headD (false, none)).1 = true) ∧
      ((out.printedJson.headD (false, none)).1 = false →
        (out.printedJson.headD (false, none)).2.isSome)) ∧
    (argv.length < 7 →
      pyMain argv bt
        = ⟨[(false, some "Usage: python backtest_single_commodity.py <symbol> <strategy> <capital> <years> <stopLossMethod> <stopLossValue>")], 1⟩) := by
  constructor
  · intro h7 hc hy out
    have hout : out = pyMain argv bt := rfl
    rw [hout]
    unfold pyMain
    rw [if_neg (not_lt.mpr h7)]
    obtain ⟨qc, hqc⟩ := Option.isSome_iff_exists.mp hc
    obtain ⟨qy, hqy⟩ := Option.isSome_iff_exists.mp hy
    rw [hqc, hqy]
    by_cases hst : (argv.getD 2 "").toLower ∉ valid_strategies
    · simp only [hst, if_true]
      refine ⟨rfl, by simp, by simp⟩
    · simp only [hst, if_false]
      by_cases hsm : (argv.getD 5 "").toLower ∉ valid_stop_methods
      · simp only [hsm, if_true]
        refine ⟨rfl, by simp, by simp⟩
      · simp only [hsm, if_false]
        refine ⟨rfl, ?_, ?_⟩
        · cases hbs : bt.success <;> simp [hbs]
        · intro hfalse
          simp only [List.headD_cons] at hfalse
          exact hbt hfalse
  · intro h7
    unfold pyMain
    rw [if_pos h7]

/-- Witness for the amended C8 at a concrete well-formed argv and a
failing backtest result. -/
theorem claim_C8_witness :
    (pyMain ["backtest_single_commodity.py", "GC=F", "rsi", "10000", "5", "atr", "2.0"]
        ⟨false, some "No data found for GC=F"⟩).printedJson.length = 1 ∧
    ((pyMain ["backtest_single_commodity.py", "GC=F", "rsi", "10000", "5", "atr", "2.0"]
        ⟨false, some "No data found for GC=F"⟩).exitCode = 0 ↔
      ((pyMain ["backtest_single_commodity.py", "GC=F", "rsi", "10000", "5", "atr", "2.0"]
        ⟨false, some "No data found for GC=F"⟩).printedJson.headD (false, none)).1 = true) ∧
    (((pyMain ["backtest_single_commodity.py", "GC=F", "rsi", "10000", "5", "atr", "2.0"]
        ⟨false, some "No data found for GC=F"⟩).printedJson.headD (false, none)).1 = false →
      ((pyMain ["backtest_single_commodity.py", "GC=F", "rsi", "10000", "5", "atr", "2.0"]
        ⟨false, some "No data found for GC=F"⟩).printedJson.headD (false, none)).2.isSome) :=
  (claim_C8_amended
      ["backtest_single_commodity.py", "GC=F", "rsi", "10000", "5", "atr", "2.0"]
      ⟨false, some "No data found for GC=F"⟩ (fun _ => rfl)).1
    (by decide) (by decide) (by decide)

/-! ## The position-taking strategies (backtest_single_commodity.py
lines 258-997)

Each strategy loop keeps one `position` dict and a `trades` list.  The
entry and exit blocks are duplicated verbatim across the five loops in
the source; they are factored here as `stratEnter`/`stratExit`, and each
loop body is a named step function folded over the index range. -/

/-- The `position` dict of the strategy loops (`entry_month` is only set
and read by `strategy_seasonal`). -/
structure OpenPos where
  entry_price : ℚ
  entry_date : PDate
  contracts : ℤ
  stop_price : Option ℚ
  entry_costs : ℚ
  entry_month : String
deriving DecidableEq, Repr

/-- Mutable loop state of one strategy backtest. -/
structure StratState where
  position : Option OpenPos
  trades : List Trade
  remaining : ℚ
  totalCosts : ℚ
deriving Repr

/-- pandas `a > b` on possibly-NaN floats (false when either is NaN). -/
def oGT : Option ℚ → Option ℚ → Bool
  | some x, some y => y < x
  | _, _ => false

/-- pandas `a < b` on possibly-NaN floats. -/
def oLT : Option ℚ → Option ℚ → Bool
  | some x, some y => x < y
  | _, _ => false

/-- pandas `a <= b` on possibly-NaN floats. -/
def oLE : Option ℚ → Option ℚ → Bool
  | some x, some y => x ≤ y
  | _, _ => false

/-- pandas `a >= b` on possibly-NaN floats. -/
def oGE : Option ℚ → Option ℚ → Bool
  | some x, some y => y ≤ x
  | _, _ => false

/-- `x <= b` with a possibly-NaN right side. -/
def oLEr (x : ℚ) (b : Option ℚ) : Bool :=
  match b with
  | some v => x ≤ v
  | none => false

/-- `x >= b` with a possibly-NaN right side. -/
def oGEr (x : ℚ) (b : Option ℚ) : Bool :=
  match b with
  | some v => v ≤ x
  | none => false

/-- Day count of a civil date (proleptic Gregorian, days since
1970-01-01; the standard days-from-civil algorithm), giving
`(date2 - date1).days`. -/
def dayNumber (d : PDate) : Int :=
  let y : Int := if d.month ≤ 2 then (d.year : Int) - 1 else (d.year : Int)
  let era : Int := (if 0 ≤ y then y else y - 399) / 400
  let yoe : Int := y - era * 400
  let m : Int := (d.month : Int)
  let doy : Int := (153 * (if 2 < d.month then m - 3 else m + 9) + 2) / 5 + (d.day : Int) - 1
  let doe : Int := yoe * 365 + yoe / 4 - yoe / 100 + doy
  era * 146097 + doe - 719468

/-- The BUY dict appended on entry by every strategy loop. -/
def mkBuyTrade (d : PDate) (price : ℚ) (contracts : ℤ) (reason : String)
    (stop : Option ℚ) (entry_costs : ℚ) : Trade :=
  { date := d
    ty := TradeType.BUY
    price := price
    contracts := contracts
    reason := reason
    stopLossPrice := stopRecord stop
    takeProfitPrice := none
    pnl := none
    commission := entry_costs
    exchangeFees := 0
    clearingFees := 0
    overnightFinancing := 0 }

/-- The SELL dict appended on exit by every strategy loop. -/
def mkSellTrade (d : PDate) (price : ℚ) (contracts : ℤ) (reason : String)
    (pnl exit_costs overnight : ℚ) : Trade :=
  { date := d
    ty := TradeType.SELL
    price := price
    contracts := contracts
    reason := reason
    stopLossPrice := none
    takeProfitPrice := none
    pnl := some pnl
    commission := exit_costs
    exchangeFees := 0
    clearingFees := 0
    overnightFinancing := overnight }

/-- Entry block shared verbatim by the five strategy loops: size the
position, compute the stop, append the BUY trade, debit margin and
costs; fewer than one affordable contract leaves the state unchanged. -/
def stratEnter (specs : CommoditySpecs) (costs : CmeCosts)
    (slMethod : String) (slValue : ℚ) (st : StratState) (d : PDate)
    (price : ℚ) (atrI volI : Option ℚ) (reason month : String) : StratState :=
  let contracts : ℤ := pyInt (st.remaining / specs.margin)
  if 1 ≤ contracts then
    let stop_price := calculate_stop_loss price slMethod slValue atrI volI "long"
    let entry_costs := entryCostPer costs * (contracts : ℚ)
    { position := some ⟨price, d, contracts, stop_price, entry_costs, month⟩
      trades := st.trades ++ [mkBuyTrade d price contracts reason stop_price entry_costs]
      remaining := st.remaining - (specs.margin * (contracts : ℚ) + entry_costs)
      totalCosts := st.totalCosts + entry_costs }
  else st

/-- Exit block shared verbatim by the five strategy loops: append the
SELL trade, credit margin and PnL net of costs, clear the position. -/
def stratExit (specs : CommoditySpecs) (costs : CmeCosts) (st : StratState)
    (pos : OpenPos) (d : PDate) (exit_price : ℚ) (reason : String) : StratState :=
  let days_held : Int := dayNumber d - dayNumber pos.entry_date
  let exit_costs := entryCostPer costs * (pos.contracts : ℚ)
  let overnight_costs :=
    specs.margin * (pos.contracts : ℚ) * costs.overnightRate * (days_held : ℚ)
  let pnl := (exit_price - pos.entry_price) * specs.contractSize * (pos.contracts : ℚ)
  { position := none
    trades := st.trades
      ++ [mkSellTrade d exit_price pos.contracts reason pnl exit_costs overnight_costs]
    remaining := st.remaining
      + (specs.margin * (pos.contracts : ℚ) + pnl - exit_costs - overnight_costs)
    totalCosts := st.totalCosts + exit_costs + overnight_costs }

/-- Embedding of `calculate_macd` (EMA 12/26, signal EMA 9). -/
def calculate_macd (prices : List ℚ) : List ℚ × List ℚ :=
  let ema_fast := calculate_ema prices 12
  let ema_slow := calculate_ema prices 26
  let macd_line := List.zipWith (fun a b => a - b) ema_fast ema_slow
  let signal_line := calculate_ema macd_line 9
  (macd_line, signal_line)

/-- `series.rolling(window=period).std()` (pandas default `ddof=1`); the
square root is irrational, so it is supplied as a parameter `sqrtF`
(the theorems below hold for every choice of `sqrtF`). -/
def rollingStd (sqrtF : ℚ → ℚ) (xs : PSeries) (period : Nat) : PSeries :=
  (List.range xs.length).map (fun i =>
    if period ≤ i + 1 then
      let w := (xs.take (i + 1)).drop (i + 1 - period)
      if w.all Option.isSome then
        let vals := w.filterMap id
        let m := vals.sum / period
        some (sqrtF ((vals.map (fun x => (x - m) ^ 2)).sum / ((period : ℚ) - 1)))
      else none
    else none)

/-- Embedding of `calculate_bollinger_bands` (period 20, 2 standard
deviations): `(upper, middle, lower)`. -/
def calculate_bollinger_bands (sqrtF : ℚ → ℚ) (prices : List ℚ) :
    PSeries × PSeries × PSeries :=
  let sma := calculate_sma prices 20
  let std := rollingStd sqrtF (prices.map some) 20
  let upper := List.zipWith (fun a b =>
    match a, b with
    | some x, some y => some (x + y * 2)
    | _, _ => none) sma std
  let lower := List.zipWith (fun a b =>
    match a, b with
    | some x, some y => some (x - y * 2)
    | _, _ => none) sma std
  (upper, sma, lower)

/-- Loop body of `strategy_sma_crossover`. -/
def smaStep (df : DFrame) (specs : CommoditySpecs) (costs : CmeCosts)
    (slMethod : String) (slValue : ℚ) (sma50 sma200 : PSeries)
    (st : StratState) (i : Nat) : StratState :=
  let current_price := df.close.getD i 0
  let dte := df.dates.getD i default
  let s50 := sma50.getD i none
  let s200 := sma200.getD i none
  let s50p := sma50.getD (i - 1) none
  let s200p := sma200.getD (i - 1) none
  match st.position with
  | none =>
      if oGT s50 s200 && oLE s50p s200p then
        stratEnter specs costs slMethod slValue st dte current_price
          (df.atr.getD i none) (df.vol.getD i none) "SMA50 crossed above SMA200" ""
      else st
  | some pos =>
      if stopHitB pos.stop_price current_price then
        stratExit specs costs st pos dte (pos.stop_price.getD 0) "Stop-loss triggered"
      else if oLT s50 s200 && oGE s50p s200p then
        stratExit specs costs st pos dte current_price "SMA50 crossed below SMA200"
      else st

/-- Embedding of `strategy_sma_crossover` (lines 258-399). -/
def strategy_sma_crossover (df : DFrame) (capital : ℚ) (specs : CommoditySpecs)
    (costs : CmeCosts) (slMethod : String) (slValue : ℚ) :
    List Trade × ℚ × ℚ :=
  let sma50 := calculate_sma df.close 50
  let sma200 := calculate_sma df.close 200
  let n := df.close.length
  let final := ((List.range n).drop 200).foldl
    (smaStep df specs costs slMethod slValue sma50 sma200) ⟨none, [], capital, 0⟩
  let closed :=
    match final.position with
    | some pos =>
        stratExit specs costs final pos (df.dates.getD (n - 1) default)
          (df.close.getD (n - 1) 0) "End of period"
    | none => final
  (closed.trades, closed.totalCosts, closed.remaining)

/-- Loop body of `strategy_rsi` (thresholds 30/70, as at the call site). -/
def rsiStep (df : DFrame) (specs : CommoditySpecs) (costs : CmeCosts)
    (slMethod : String) (slValue : ℚ) (rsiS : PSeries)
    (st : StratState) (i : Nat) : StratState :=
  let current_price := df.close.getD i 0
  let dte := df.dates.getD i default
  let rsiI := rsiS.getD i none
  let rsiP := rsiS.getD (i - 1) none
  match st.position with
  | none =>
      if oGT rsiI (some 30) && oLE rsiP (some 30) then
        stratEnter specs costs slMethod slValue st dte current_price
          (df.atr.getD i none) (df.vol.getD i none) "RSI crossed above 30 (oversold)" ""
      else st
  | some pos =>
      if stopHitB pos.stop_price current_price then
        stratExit specs costs st pos dte (pos.stop_price.getD 0) "Stop-loss triggered"
      else if oLT rsiI (some 70) && oGE rsiP (some 70) then
        stratExit specs costs st pos dte current_price "RSI crossed below 70 (overbought)"
      else st

/-- Embedding of `strategy_rsi` (lines 401-539). -/
def strategy_rsi (df : DFrame) (capital : ℚ) (specs : CommoditySpecs)
    (costs : CmeCosts) (slMethod : String) (slValue : ℚ) :
    List Trade × ℚ × ℚ :=
  let rsiS := calculate_rsi df.close 14
  let n := df.close.length
  let final := ((List.range n).drop 14).foldl
    (rsiStep df specs costs slMethod slValue rsiS) ⟨none, [], capital, 0⟩
  let closed :=
    match final.position with
    | some pos =>
        stratExit specs costs final pos (df.dates.getD (n - 1) default)
          (df.close.getD (n - 1) 0) "End of period"
    | none => final
  (closed.trades, closed.totalCosts, closed.remaining)

/-- Loop body of `strategy_macd` (the MACD and signal lines are total,
NaN-free series). -/
def macdStep (df : DFrame) (specs : CommoditySpecs) (costs : CmeCosts)
    (slMethod : String) (slValue : ℚ) (macd_line signal_line : List ℚ)
    (st : StratState) (i : Nat) : StratState :=
  let current_price := df.close.getD i 0
  let dte := df.dates.getD i default
  let macd := macd_line.getD i 0
  let signal := signal_line.getD i 0
  let macd_prev := macd_line.getD (i - 1) 0
  let signal_prev := signal_line.getD (i - 1) 0
  match st.position with
  | none =>
      if signal < macd ∧ macd_prev ≤ signal_prev then
        stratEnter specs costs slMethod slValue st dte current_price
          (df.atr.getD i none) (df.vol.getD i none) "MACD crossed above Signal" ""
      else st
  | some pos =>
      if stopHitB pos.stop_price current_price then
        stratExit specs costs st pos dte (pos.stop_price.getD 0) "Stop-loss triggered"
      else if macd < signal ∧ signal_prev ≤ macd_prev then
        stratExit specs costs st pos dte current_price "MACD crossed below Signal"
      else st

/-- Embedding of `strategy_macd` (lines 541-683). -/
def strategy_macd (df : DFrame) (capital : ℚ) (specs : CommoditySpecs)
    (costs : CmeCosts) (slMethod : String) (slValue : ℚ) :
    List Trade × ℚ × ℚ :=
  let ml := calculate_macd df.close
  let n := df.close.length
  let final := ((List.range n).drop 26).foldl
    (macdStep df specs costs slMethod slValue ml.1 ml.2) ⟨none, [], capital, 0⟩
  let closed :=
    match final.position with
    | some pos =>
        stratExit specs costs final pos (df.dates.getD (n - 1) default)
          (df.close.getD (n - 1) 0) "End of period"
    | none => final
  (closed.trades, closed.totalCosts, closed.remaining)

/-- Loop body of `strategy_bollinger`. -/
def bollStep (df : DFrame) (specs : CommoditySpecs) (costs : CmeCosts)
    (slMethod : String) (slValue : ℚ) (upper middle lower : PSeries)
    (st : StratState) (i : Nat) : StratState :=
  let current_price := df.close.getD i 0
  let dte := df.dates.getD i default
  let bb_lower := lower.getD i none
  let bb_middle := middle.getD i none
  match st.position with
  | none =>
      if oLEr current_price bb_lower then
        stratEnter specs costs slMethod slValue st dte current_price
          (df.atr.getD i none) (df.vol.getD i none) "Price touched lower Bollinger Band" ""
      else st
  | some pos =>
      if stopHitB pos.stop_price current_price then
        stratExit specs costs st pos dte (pos.stop_price.getD 0) "Stop-loss triggered"
      else if oGEr current_price bb_middle then
        stratExit specs costs st pos dte current_price "Price returned to middle band"
      else st

/-- Embedding of `strategy_bollinger` (lines 685-827). -/
def strategy_bollinger (sqrtF : ℚ → ℚ) (df : DFrame) (capital : ℚ)
    (specs : CommoditySpecs) (costs : CmeCosts) (slMethod : String)
    (slValue : ℚ) : List Trade × ℚ × ℚ :=
  let bands := calculate_bollinger_bands sqrtF df.close
  let n := df.close.length
  let final := ((List.range n).drop 20).foldl
    (bollStep df specs costs slMethod slValue bands.1 bands.2.1 bands.2.2)
    ⟨none, [], capital, 0⟩
  let closed :=
    match final.position with
    | some pos =>
        stratExit specs costs final pos (df.dates.getD (n - 1) default)
          (df.close.getD (n - 1) 0) "End of period"
    | none => final
  (closed.trades, closed.totalCosts, closed.remaining)

/-- `strftime('%B')`. -/
def monthName (m : Nat) : String :=
  match m with
  | 1 => "January"
  | 2 => "February"
  | 3 => "March"
  | 4 => "April"
  | 5 => "May"
  | 6 => "June"
  | 7 => "July"
  | 8 => "August"
  | 9 => "September"
  | 10 => "October"
  | 11 => "November"
  | 12 => "December"
  | _ => ""

/-- `month_order` of `strategy_seasonal`. -/
def month_order : List String :=
  ["January", "February", "March", "April", "May", "June",
   "July", "August", "September", "October", "November", "December"]

/-- First pass of `strategy_seasonal`: walk the rows keeping
`prev_month_close`/`prev_date` and emit, at each month boundary, the
percentage return from the first close of the previous month to the
first close of the new month, attributed to the previous month's name.
(A zero `prev_month_close` would raise `ZeroDivisionError` in Python; in
`ℚ` the division yields 0 — market closes are positive.) -/
def collectMonthlyGo : List (PDate × ℚ) → Option ℚ → Option PDate →
    List (String × ℚ) → List (String × ℚ)
  | [], _, _, acc => acc
  | (dte, close) :: rest, prevMonthClose, prevDate, acc =>
      let acc2 :=
        match prevMonthClose, prevDate with
        | some pmc, some pd =>
            if dte.month ≠ pd.month then
              acc ++ [(monthName pd.month, (close - pmc) / pmc * 100)]
            else acc
        | _, _ => acc
      let newPmc :=
        if dte.month ≠ (match prevDate with | some pd => pd.month | none => 0) then
          some close
        else prevMonthClose
      collectMonthlyGo rest newPmc (some dte) acc2

/-- `statistics.mean`. -/
def listMean (l : List ℚ) : ℚ :=
  l.sum / l.length

/-- One insertion step of the stable descending sort by average return
(`sorted(..., key=avgReturn, reverse=True)` is stable, so an element is
placed after earlier elements with an equal key). -/
def insertByReturn (x : String × ℚ) : List (String × ℚ) → List (String × ℚ)
  | [] => [x]
  | y :: ys => if y.2 < x.2 then x :: y :: ys else y :: insertByReturn x ys

/-- Stable descending sort by average return. -/
def sortByReturnDesc (l : List (String × ℚ)) : List (String × ℚ) :=
  l.foldl (fun acc x => insertByReturn x acc) []

/-- `best_months` of `strategy_seasonal`: the four months with the
highest average historical return, in `month_order` for ties. -/
def bestMonths (df : DFrame) : List String :=
  let pairs := collectMonthlyGo (df.dates.zip df.close) none none []
  let monthly_stats := month_order.filterMap (fun m =>
    let rets := (pairs.filter (fun p => p.1 = m)).map (fun p => p.2)
    if 0 < rets.length then some (m, listMean rets) else none)
  ((sortByReturnDesc monthly_stats).take 4).map (fun p => p.1)

/-- Loop body of `strategy_seasonal`: enter within the first five days of
a best month; exit on stop-loss, or on the first row of a different
month (the `day >= 25` disjunct enables the branch but the inner check
only sells on a month change, so a late-month row of the entry month
changes nothing). -/
def seasonalStep (df : DFrame) (specs : CommoditySpecs) (costs : CmeCosts)
    (slMethod : String) (slValue : ℚ) (best : List String)
    (st : StratState) (i : Nat) : StratState :=
  let current_date := df.dates.getD i default
  let current_price := df.close.getD i 0
  let mname := monthName current_date.month
  match st.position with
  | none =>
      if mname ∈ best ∧ current_date.day ≤ 5 then
        stratEnter specs costs slMethod slValue st current_date current_price
          (df.atr.getD i none) (df.vol.getD i none)
          ("Start of " ++ mname ++ " (best month)") mname
      else st
  | some pos =>
      if stopHitB pos.stop_price current_price then
        stratExit specs costs st pos current_date (pos.stop_price.getD 0)
          "Stop-loss triggered"
      else if mname ≠ pos.entry_month ∨ 25 ≤ current_date.day then
        if mname ≠ pos.entry_month then
          stratExit specs costs st pos current_date current_price
            ("End of " ++ pos.entry_month)
        else st
      else st

/-- Embedding of `strategy_seasonal` (lines 829-997). -/
def strategy_seasonal (df : DFrame) (capital : ℚ) (specs : CommoditySpecs)
    (costs : CmeCosts) (slMethod : String) (slValue : ℚ) :
    List Trade × ℚ × ℚ :=
  let best := bestMonths df
  let n := df.close.length
  let final := (List.range n).foldl
    (seasonalStep df specs costs slMethod slValue best) ⟨none, [], capital, 0⟩
  let closed :=
    match final.position with
    | some pos =>
        stratExit specs costs final pos (df.dates.getD (n - 1) default)
          (df.close.getD (n - 1) 0) "End of period"
    | none => final
  (closed.trades, closed.totalCosts, closed.remaining)

/-! ## Trade-sequence alternation (C10)

`multi_strategy_analyzer.StockStrategy.validate_trade_sequence` checks the
buy-before-sell discipline; the invariant below proves the five loops of
backtest_single_commodity.py satisfy it by construction. -/

/-- Validity automaton of a trade-type sequence: the state is "position
open"; `none` marks an invalid transition (SELL while flat or BUY while
open). -/
def altRun : Bool → List TradeType → Option Bool
  | st, [] => some st
  | st, TradeType.BUY :: r => if st then none else altRun true r
  | st, TradeType.SELL :: r => if st then altRun false r else none

/-- The sequence is complete strictly alternating round trips:
`BUY, SELL, BUY, SELL, ...` — hence even length, starting with BUY and
ending with SELL when nonempty. -/
def buySellPaired : List TradeType → Bool
  | [] => true
  | TradeType.BUY :: TradeType.SELL :: r => buySellPaired r
  | _ => false

lemma altRun_append (l1 l2 : List TradeType) :
    ∀ st, altRun st (l1 ++ l2) = (altRun st l1).bind (fun m => altRun m l2) := by
  induction l1 with
  | nil => intro st; simp [altRun]
  | cons hd tl ih =>
      intro st
      cases hd <;> cases st <;> simp [altRun, ih]

lemma altRun_paired :
    ∀ l : List TradeType, altRun false l = some false → buySellPaired l = true
  | [], _ => rfl
  | TradeType.BUY :: TradeType.SELL :: r, h => by
      have hr : altRun false r = some false := by simpa [altRun] using h
      simpa [buySellPaired] using altRun_paired r hr
  | [TradeType.BUY], h => by simp [altRun] at h
  | TradeType.BUY :: TradeType.BUY :: r, h => by simp [altRun] at h
  | TradeType.SELL :: r, h => by simp [altRun] at h

/-- Loop invariant: the trade types recorded so far form a valid
sequence whose final open/closed state matches the `position` variable. -/
def AltInv (st : StratState) : Prop :=
  altRun false (st.trades.map (fun t => t.ty)) = some st.position.isSome

/-- Behavioural shape of a strategy loop body: when flat it either keeps
state or appends one BUY and opens; when in a position it either keeps
state or appends one SELL and closes. -/
def StepShape (f : StratState → Nat → StratState) : Prop :=
  ∀ st i,
    (st.position = none →
      ((f st i).trades = st.trades ∧ (f st i).position = none) ∨
      (∃ t, t.ty = TradeType.BUY ∧ (f st i).trades = st.trades ++ [t] ∧
        (f st i).position.isSome = true)) ∧
    (st.position.isSome = true →
      ((f st i).trades = st.trades ∧ (f st i).position = st.position) ∨
      (∃ t, t.ty = TradeType.SELL ∧ (f st i).trades = st.trades ++ [t] ∧
        (f st i).position = none))

lemma altInv_step (f : StratState → Nat → StratState) (hf : StepShape f)
    (st : StratState) (i : Nat) (h : AltInv st) : AltInv (f st i) := by
  unfold AltInv at h ⊢
  rcases hpos : st.position with _ | pos
  · rw [hpos] at h
    simp only [Option.isSome_none] at h
    rcases (hf st i).1 hpos with ⟨ht, hp⟩ | ⟨t, hty, ht, hp⟩
    · rw [ht, hp, h]
      simp
    · rw [ht, List.map_append, altRun_append, h, hp]
      simp [hty, altRun]
  · rw [hpos] at h
    simp only [Option.isSome_some] at h
    rcases (hf st i).2 (by rw [hpos]; rfl) with ⟨ht, hp⟩ | ⟨t, hty, ht, hp⟩
    · rw [ht, hp, hpos, h]
      rfl
    · rw [ht, List.map_append, altRun_append, h, hp]
      simp [hty, altRun]

lemma altInv_fold (f : StratState → Nat → StratState) (hf : StepShape f)
    (l : List Nat) : ∀ st : StratState, AltInv st → AltInv (l.foldl f st) := by
  induction l with
  | nil => intro st h; exact h
  | cons hd tl ih => intro st h; exact ih _ (altInv_step f hf st hd h)

/-- Closing an open position at the end of the loop yields a fully
paired trade sequence. -/
lemma close_paired (st : StratState) (h : AltInv st) (specs : CommoditySpecs)
    (costs : CmeCosts) (d : PDate) (p : ℚ) (r : String) :
    buySellPaired ((((match st.position with
      | some pos => stratExit specs costs st pos d p r
      | none => st : StratState)).trades).map (fun t => t.ty)) = true := by
  unfold AltInv at h
  rcases hpos : st.position with _ | pos
  · simp only [hpos, Option.isSome_none] at h
    exact altRun_paired _ h
  · simp only [hpos, Option.isSome_some] at h
    show buySellPaired ((stratExit specs costs st pos d p r).trades.map (fun t => t.ty)) = true
    have ht : (stratExit specs costs st pos d p r).trades
        = st.trades ++ [mkSellTrade d p pos.contracts r
            ((p - pos.entry_price) * specs.contractSize * (pos.contracts : ℚ))
            (entryCostPer costs * (pos.contracts : ℚ))
            (specs.margin * (pos.contracts : ℚ) * costs.overnightRate
              * ((dayNumber d - dayNumber pos.entry_date : Int) : ℚ))] := rfl
    apply altRun_paired
    rw [ht, List.map_append, altRun_append, h]
    simp [mkSellTrade, altRun]

lemma stratEnter_cases (specs : CommoditySpecs) (costs : CmeCosts)
    (slM : String) (slV : ℚ) (st : StratState) (d : PDate) (price : ℚ)
    (a v : Option ℚ) (reason month : String) :
    (stratEnter specs costs slM slV st d price a v reason month = st) ∨
    (∃ t, t.ty = TradeType.BUY ∧
      (stratEnter specs costs slM slV st d price a v reason month).trades
        = st.trades ++ [t] ∧
      (stratEnter specs costs slM slV st d price a v reason month).position.isSome
        = true) := by
  simp only [stratEnter]
  split_ifs with h
  · right
    exact ⟨_, rfl, rfl, rfl⟩
  · left
    rfl

lemma stepShape_sma (df : DFrame) (specs : CommoditySpecs) (costs : CmeCosts)
    (slM : String) (slV : ℚ) (s50 s200 : PSeries) :
    StepShape (smaStep df specs costs slM slV s50 s200) := by
  intro st i
  constructor
  · intro hpos
    simp only [smaStep, hpos]
    split_ifs with h
    · rcases stratEnter_cases specs costs slM slV st (df.dates.getD i default)
          (df.close.getD i 0) (df.atr.getD i none) (df.vol.getD i none)
          "SMA50 crossed above SMA200" "" with he | he
      · left
        rw [he]
        exact ⟨rfl, hpos⟩
      · right
        exact he
    · left
      exact ⟨rfl, hpos⟩
  · intro hpos
    rcases hp : st.position with _ | pos
    · rw [hp] at hpos
      simp at hpos
    · simp only [smaStep, hp]
      split_ifs with h1 h2
      · right
        exact ⟨_, rfl, rfl, rfl⟩
      · right
        exact ⟨_, rfl, rfl, rfl⟩
      · left
        exact ⟨rfl, hp⟩

lemma stepShape_rsi (df : DFrame) (specs : CommoditySpecs) (costs : CmeCosts)
    (slM : String) (slV : ℚ) (rsiS : PSeries) :
    StepShape (rsiStep df specs costs slM slV rsiS) := by
  intro st i
  constructor
  · intro hpos
    simp only [rsiStep, hpos]
    split_ifs with h
    · rcases stratEnter_cases specs costs slM slV st (df.dates.getD i default)
          (df.close.getD i 0) (df.atr.getD i none) (df.vol.getD i none)
          "RSI crossed above 30 (oversold)" "" with he | he
      · left
        rw [he]
        exact ⟨rfl, hpos⟩
      · right
        exact he
    · left
      exact ⟨rfl, hpos⟩
  · intro hpos
    rcases hp : st.position with _ | pos
    · rw [hp] at hpos
      simp at hpos
    · simp only [rsiStep, hp]
      split_ifs with h1 h2
      · right
        exact ⟨_, rfl, rfl, rfl⟩
      · right
        exact ⟨_, rfl, rfl, rfl⟩
      · left
        exact ⟨rfl, hp⟩

lemma stepShape_macd (df : DFrame) (specs : CommoditySpecs) (costs : CmeCosts)
    (slM : String) (slV : ℚ) (ml sl : List ℚ) :
    StepShape (macdStep df specs costs slM slV ml sl) := by
  intro st i
  constructor
  · intro hpos
    simp only [macdStep, hpos]
    split_ifs with h
    · rcases stratEnter_cases specs costs slM slV st (df.dates.getD i default)
          (df.close.getD i 0) (df.atr.getD i none) (df.vol.getD i none)
          "MACD crossed above Signal" "" with he | he
      · left
        rw [he]
        exact ⟨rfl, hpos⟩
      · right
        exact he
    · left
      exact ⟨rfl, hpos⟩
  · intro hpos
    rcases hp : st.position with _ | pos
    · rw [hp] at hpos
      simp at hpos
    · simp only [macdStep, hp]
      split_ifs with h1 h2
      · right
        exact ⟨_, rfl, rfl, rfl⟩
      · right
        exact ⟨_, rfl, rfl, rfl⟩
      · left
        exact ⟨rfl, hp⟩

lemma stepShape_boll (df : DFrame) (specs : CommoditySpecs) (costs : CmeCosts)
    (slM : String) (slV : ℚ) (u m l : PSeries) :
    StepShape (bollStep df specs costs slM slV u m l) := by
  intro st i
  constructor
  · intro hpos
    simp only [bollStep, hpos]
    split_ifs with h
    · rcases stratEnter_cases specs costs slM slV st (df.dates.getD i default)
          (df.close.getD i 0) (df.atr.getD i none) (df.vol.getD i none)
          "Price touched lower Bollinger Band" "" with he | he
      · left
        rw [he]
        exact ⟨rfl, hpos⟩
      · right
        exact he
    · left
      exact ⟨rfl, hpos⟩
  · intro hpos
    rcases hp : st.position with _ | pos
    · rw [hp] at hpos
      simp at hpos
    · simp only [bollStep, hp]
      split_ifs with h1 h2
      · right
        exact ⟨_, rfl, rfl, rfl⟩
      · right
        exact ⟨_, rfl, rfl, rfl⟩
      · left
        exact ⟨rfl, hp⟩

lemma stepShape_seasonal (df : DFrame) (specs : CommoditySpecs)
    (costs : CmeCosts) (slM : String) (slV : ℚ) (best : List String) :
    StepShape (seasonalStep df specs costs slM slV best) := by
  intro st i
  constructor
  · intro hpos
    simp only [seasonalStep, hpos]
    split_ifs with h
    · rcases stratEnter_cases specs costs slM slV st (df.dates.getD i default)
          (df.close.getD i 0) (df.atr.getD i none) (df.vol.getD i none)
          ("Start of " ++ monthName (df.dates.getD i default).month ++ " (best month)")
          (monthName (df.dates.getD i default).month) with he | he
      · left
        rw [he]
        exact ⟨rfl, hpos⟩
      · right
        exact he
    · left
      exact ⟨rfl, hpos⟩
  · intro hpos
    rcases hp : st.position with _ | pos
    · rw [hp] at hpos
      simp at hpos
    · simp only [seasonalStep, hp]
      split_ifs with h1 h2 h3
      · right
        exact ⟨_, rfl, rfl, rfl⟩
      · right
        exact ⟨_, rfl, rfl, rfl⟩
      · left
        exact ⟨rfl, hp⟩
      · left
        exact ⟨rfl, hp⟩

/-- C10: for every input frame, the trade list of each of the five
position-taking strategies is a sequence of complete BUY/SELL round
trips: strict alternation starting with BUY, no SELL without an open
position, no two consecutive BUYs, and any position still open on the
last row is closed — hence every nonempty trade list has even length and
ends with a SELL. -/
theorem claim_C10_alternation (df : DFrame) (capital : ℚ)
    (specs : CommoditySpecs) (costs : CmeCosts) (slMethod : String)
    (slValue : ℚ) (sqrtF : ℚ → ℚ) :
    buySellPaired ((strategy_sma_crossover df capital specs costs slMethod
      slValue).1.map (fun t => t.ty)) = true ∧
    buySellPaired ((strategy_rsi df capital specs costs slMethod
      slValue).1.map (fun t => t.ty)) = true ∧
    buySellPaired ((strategy_macd df capital specs costs slMethod
      slValue).1.map (fun t => t.ty)) = true ∧
    buySellPaired ((strategy_bollinger sqrtF df capital specs costs slMethod
      slValue).1.map (fun t => t.ty)) = true ∧
    buySellPaired ((strategy_seasonal df capital specs costs slMethod
      slValue).1.map (fun t => t.ty)) = true := by
  have hinit : AltInv ⟨none, [], capital, 0⟩ := by
    unfold AltInv
    rfl
  refine ⟨?_, ?_, ?_, ?_, ?_⟩
  · simp only [strategy_sma_crossover]
    exact close_paired _
      (altInv_fold _ (stepShape_sma df specs costs slMethod slValue _ _) _ _ hinit)
      specs costs _ _ _
  · simp only [strategy_rsi]
    exact close_paired _
      (altInv_fold _ (stepShape_rsi df specs costs slMethod slValue _) _ _ hinit)
      specs costs _ _ _
  · simp only [strategy_macd]
    exact close_paired _
      (altInv_fold _ (stepShape_macd df specs costs slMethod slValue _ _) _ _ hinit)
      specs costs _ _ _
  · simp only [strategy_bollinger]
    exact close_paired _
      (altInv_fold _ (stepShape_boll df specs costs slMethod slValue _ _ _) _ _ hinit)
      specs costs _ _ _
  · simp only [strategy_seasonal]
    exact close_paired _
      (altInv_fold _ (stepShape_seasonal df specs costs slMethod slValue _) _ _ hinit)
      specs costs _ _ _
